import Mathlib

/-!
# ScyllaTest probe engine (`ScyllaTest/main.cpp`)

A shallow embedding of the detection probes and of the test loop of
`ScyllaTest/main.cpp`, followed by theorems about them.

Conventions of the embedding:

* machine integers (`DWORD`, `ULONG`, `NTSTATUS`, handles, addresses) are natural
  numbers; an `NTSTATUS` is the unsigned 32-bit pattern of the status code;
* every operating-system call is an explicit argument (an oracle) whose answer is
  given by the caller, so that a statement quantified over the oracle holds for
  every behaviour of the operating system;
* a structured exception raised by a call is an explicit alternative of the
  call's behaviour;
* loops that the source writes as `while (true)` are recursive functions on a
  fuel argument or on the list of answers still to be consumed, and return
  `none` when the argument runs out before the loop leaves.
-/

namespace ScyllaTest

/-! ## Outcome of a probe -/

/-- The enumeration `ScyllaTestResult` of the source. -/
inductive ScyllaTestResult where
  | ScyllaTestOk
  | ScyllaTestFail
  | ScyllaTestDetected
  | ScyllaTestSkip
  deriving DecidableEq, Repr

open ScyllaTestResult

/-- The expression `SCYLLA_TEST_CHECK(x)`: `x ? ScyllaTestOk : ScyllaTestDetected`. -/
def SCYLLA_TEST_CHECK (x : Bool) : ScyllaTestResult :=
  if x then ScyllaTestOk else ScyllaTestDetected

/-! ## Status codes -/

/-- The test `NT_SUCCESS(Status)`: the status, read as a signed 32-bit integer, is
not negative, that is, its 32-bit pattern is below 0x80000000. -/
def NT_SUCCESS (Status : Nat) : Bool :=
  Status < 0x80000000

/-- The status `STATUS_INFO_LENGTH_MISMATCH` (`ntstatus.h`). -/
def STATUS_INFO_LENGTH_MISMATCH : Nat := 0xC0000004

/-- The status `STATUS_INSUFFICIENT_RESOURCES` (`ntstatus.h`). -/
def STATUS_INSUFFICIENT_RESOURCES : Nat := 0xC000009A

/-- The status `STATUS_TIMEOUT` (`ntstatus.h`). -/
def STATUS_TIMEOUT : Nat := 0x00000102

/-- The status `STATUS_SUCCESS` (`ntstatus.h`). -/
def STATUS_SUCCESS : Nat := 0

/-- The status `STATUS_INVALID_HANDLE` (`ntstatus.h`). -/
def STATUS_INVALID_HANDLE : Nat := 0xC0000008

/-- The status `STATUS_ACCESS_DENIED` (`ntstatus.h`). -/
def STATUS_ACCESS_DENIED : Nat := 0xC0000022

/-- The status `STATUS_PORT_NOT_SET` (`ntstatus.h`). -/
def STATUS_PORT_NOT_SET : Nat := 0xC0000353

/-- The exception code `EXCEPTION_INVALID_HANDLE`, which `winbase.h` defines as
`STATUS_INVALID_HANDLE`. -/
def EXCEPTION_INVALID_HANDLE : Nat := STATUS_INVALID_HANDLE

/-! ## `Check_NtClose` -/

/-- What a system call made inside a `__try` block does: it returns a status, or
it raises a structured exception with a code. -/
inductive CallBehaviour where
  | returns (status : Nat)
  | raises (code : Nat)
  deriving DecidableEq, Repr

/-- The call returned to its caller, no exception was raised. -/
def CallBehaviour.returnsNormally : CallBehaviour → Bool
  | .returns _ => true
  | .raises _ => false

/-- The function `Check_NtClose`. The argument is the behaviour of
`NtClose((HANDLE)(ULONG_PTR)0x1337)`. When the call returns, the `__try` block
returns `ScyllaTestOk`. The handler `__except (EXCEPTION_EXECUTE_HANDLER)` catches
every exception and compares `GetExceptionCode()` with
`EXCEPTION_INVALID_HANDLE`. -/
def Check_NtClose (close1337 : CallBehaviour) : ScyllaTestResult :=
  match close1337 with
  | .returns _ => ScyllaTestOk
  | .raises code =>
    if code = EXCEPTION_INVALID_HANDLE then ScyllaTestDetected else ScyllaTestFail

/-! ## Process-list scan -/

/-- A `std::wstring`: the sequence of its `wchar_t` code units. -/
abbrev wstring := List Nat

/-- A wide string literal of the source: the code units of its characters (all
the literals of the source are ASCII). -/
def L (s : String) : wstring :=
  s.toList.map Char.toNat

/-- The static array `exeToDetect` of `isExeDetected`. -/
def exeToDetect : List wstring :=
  [ L "ollydbg.exe",
    L "idaq.exe",
    L "idaq64.exe",
    L "ida.exe",
    L "ida64.exe",
    L "idat.exe",
    L "idat64.exe",
    L "x32dbg.exe",
    L "x64dbg.exe" ]

/-- The loop of `isExeDetected` over an array of names: `true` at the first item
with `item == exe`, `false` when the array is exhausted. -/
def isExeDetectedIn : List wstring → wstring → Bool
  | [], _ => false
  | item :: rest, exe => if item = exe then true else isExeDetectedIn rest exe

/-- The function `isExeDetected`. -/
def isExeDetected (exe : wstring) : Bool :=
  isExeDetectedIn exeToDetect exe

/-- The two fields of a `SYSTEM_PROCESS_INFORMATION` record that the walk reads.
`ImageName_Buffer` is `none` for a null `ImageName.Buffer`; otherwise it holds the
code units of the wide C string the pointer designates, up to its terminator. -/
structure SYSTEM_PROCESS_INFORMATION where
  NextEntryOffset : Nat
  ImageName_Buffer : Option wstring
  deriving DecidableEq, Repr

/-- The name the walk builds for a record:
`pinfo->ImageName.Buffer ? pinfo->ImageName.Buffer : L""`. -/
def processName (r : SYSTEM_PROCESS_INFORMATION) : wstring :=
  match r.ImageName_Buffer with
  | some s => s
  | none => L ""

/-- The function `walkProcessList`. `mem a` is the record found at address `a`,
`pinfo` the address of the current record. Each unit of fuel pays for one turn
of the `while (true)` loop; `none` means the fuel ran out inside the loop. -/
def walkProcessList (mem : Nat → SYSTEM_PROCESS_INFORMATION) :
    Nat → Nat → Option ScyllaTestResult
  | 0, _ => none
  | fuel + 1, pinfo =>
    if isExeDetected (processName (mem pinfo)) then
      some ScyllaTestDetected
    else if (mem pinfo).NextEntryOffset = 0 then
      some ScyllaTestOk
    else
      walkProcessList mem fuel (pinfo + (mem pinfo).NextEntryOffset)

/-- The loop of `walkProcessList` once more, as one recursion that gives both the
addresses of the records on which the loop body runs, in order, and the result
returned; the result is `none` when the fuel ran out inside the loop. -/
def walkProcessListTraced (mem : Nat → SYSTEM_PROCESS_INFORMATION) :
    Nat → Nat → List Nat × Option ScyllaTestResult
  | 0, _ => ([], none)
  | fuel + 1, pinfo =>
    if isExeDetected (processName (mem pinfo)) then
      ([pinfo], some ScyllaTestDetected)
    else if (mem pinfo).NextEntryOffset = 0 then
      ([pinfo], some ScyllaTestOk)
    else
      let r := walkProcessListTraced mem fuel (pinfo + (mem pinfo).NextEntryOffset)
      (pinfo :: r.1, r.2)

/-- A well-formed process list at address `p`: `addrs` lists the addresses of its
records, the first one is `p`, each record but the last has a non-zero
`NextEntryOffset` that leads to the next address, and the last record has
`NextEntryOffset = 0`. -/
def IsProcessList (mem : Nat → SYSTEM_PROCESS_INFORMATION) : Nat → List Nat → Prop
  | _, [] => False
  | p, [a] => a = p ∧ (mem p).NextEntryOffset = 0
  | p, a :: b :: rest =>
    a = p ∧ (mem p).NextEntryOffset ≠ 0 ∧
      IsProcessList mem (p + (mem p).NextEntryOffset) (b :: rest)

/-- A synthetic process list: three records at addresses 0, 0x100 and 0x220, the
second of them named `x64dbg.exe`. -/
def sampleListWith : Nat → SYSTEM_PROCESS_INFORMATION := fun a =>
  if a = 0 then ⟨0x100, none⟩
  else if a = 0x100 then ⟨0x120, some (L "x64dbg.exe")⟩
  else ⟨0, some (L "explorer.exe")⟩

/-- The list `sampleListWith` without its watch-listed record: the first record
leads directly to the last one. -/
def sampleListWithout : Nat → SYSTEM_PROCESS_INFORMATION := fun a =>
  if a = 0 then ⟨0x220, none⟩
  else ⟨0, some (L "explorer.exe")⟩

/-! ## Control block, heap flags, process parameters -/

/-- The fields of a process environment block (`scl::PEB`, `scl::PEB64`) that the
probes read. -/
structure PEB where
  BeingDebugged : Nat
  NtGlobalFlag : Nat
  ProcessParameters : Nat
  NumberOfHeaps : Nat
  ProcessHeaps : Nat
  deriving DecidableEq, Repr

/-- The memory of the process as the native probes dereference it: `ptr a` is
`*(void **)a` and `dword a` is `*(DWORD *)a`. -/
structure Memory where
  ptr : Nat → Nat
  dword : Nat → Nat

/-- What the probes obtain from the process under test. The three functions of
`Scylla/Peb.h` are not part of the sources at hand and are taken as given:
`GetPebAddress` and `Wow64GetPeb64` answer `none` for a null result,
`Wow64ReadProcessMemory64 address size` answers `none` when the call fails and the
bytes it stored in the destination buffer when it succeeds; `GetHeapFlagsOffset`
and `GetHeapForceFlagsOffset` take the flag `x64`. -/
structure Target where
  GetPebAddress : Option PEB
  Wow64GetPeb64 : Option PEB
  Wow64ReadProcessMemory64 : Nat → Nat → Option (List Nat)
  memory : Memory
  GetHeapFlagsOffset : Bool → Nat
  GetHeapForceFlagsOffset : Bool → Nat

/-- The flag `HEAP_TAIL_CHECKING_ENABLED` (`winnt.h`). -/
def HEAP_TAIL_CHECKING_ENABLED : Nat := 0x00000020

/-- The flag `HEAP_FREE_CHECKING_ENABLED` (`winnt.h`). -/
def HEAP_FREE_CHECKING_ENABLED : Nat := 0x00000040

/-- The flag `HEAP_SKIP_VALIDATION_CHECKS`. -/
def HEAP_SKIP_VALIDATION_CHECKS : Nat := 0x10000000

/-- The flag `HEAP_VALIDATE_PARAMETERS_ENABLED`. -/
def HEAP_VALIDATE_PARAMETERS_ENABLED : Nat := 0x40000000

/-- The local constant `bad_flags` of the two heap-flags probes. -/
def bad_flags : Nat :=
  HEAP_TAIL_CHECKING_ENABLED ||| HEAP_FREE_CHECKING_ENABLED |||
    HEAP_SKIP_VALIDATION_CHECKS ||| HEAP_VALIDATE_PARAMETERS_ENABLED

/-- The size `sizeof(void *)` of the build. -/
def sizeofPtr (is_x64 : Bool) : Nat :=
  if is_x64 then 8 else 4

/-- The `for` loop of `Check_PEB_HeapFlags`; `i` is the loop variable and the
first argument counts the turns still to run, `NumberOfHeaps - i`. -/
def Check_PEB_HeapFlags_loop (t : Target) (is_x64 : Bool) (heaps : Nat) :
    Nat → Nat → ScyllaTestResult
  | 0, _ => ScyllaTestOk
  | n + 1, i =>
    let flags := t.memory.dword
      (t.memory.ptr (heaps + i * sizeofPtr is_x64) + t.GetHeapFlagsOffset is_x64)
    let force_flags := t.memory.dword
      (t.memory.ptr (heaps + i * sizeofPtr is_x64) + t.GetHeapForceFlagsOffset is_x64)
    if flags &&& bad_flags ≠ 0 ∨ force_flags &&& bad_flags ≠ 0 then
      ScyllaTestDetected
    else
      Check_PEB_HeapFlags_loop t is_x64 heaps n (i + 1)

/-- The function `Check_PEB_HeapFlags`. -/
def Check_PEB_HeapFlags (t : Target) (is_x64 : Bool) : ScyllaTestResult :=
  match t.GetPebAddress with
  | none => ScyllaTestFail
  | some peb => Check_PEB_HeapFlags_loop t is_x64 peb.ProcessHeaps peb.NumberOfHeaps 0

/-- The effect on a destination buffer of a read that delivered `bytes`: the
bytes replace the start of the buffer, whose size does not change. -/
def store (buffer bytes : List Nat) : List Nat :=
  bytes.take buffer.length ++ buffer.drop bytes.length

/-- The little-endian value of the `k` bytes of `buffer` from offset `off`; a
byte outside the buffer counts as zero. -/
def leAt (buffer : List Nat) (off : Nat) : Nat → Nat
  | 0 => 0
  | k + 1 => buffer.getD off 0 + 256 * leAt buffer (off + 1) k

/-- The value `*(DWORD *)(buffer + off)`. -/
def dwordAt (buffer : List Nat) (off : Nat) : Nat :=
  leAt buffer off 4

/-- The element `heaps64[i]` of a `PVOID64` array kept as its bytes. -/
def pvoid64At (buffer : List Nat) (i : Nat) : Nat :=
  leAt buffer (8 * i) 8

/-- The `for` loop of `Check_Wow64PEB64_HeapFlags`; `heaps64` holds the bytes of
the pointer array, `heap` the 0x100-byte buffer reused by every turn, `i` is the
loop variable and the first argument counts the turns still to run. -/
def Check_Wow64PEB64_HeapFlags_loop (t : Target) (heaps64 : List Nat) :
    Nat → Nat → List Nat → ScyllaTestResult
  | 0, _, _ => ScyllaTestOk
  | n + 1, i, heap =>
    match t.Wow64ReadProcessMemory64 (pvoid64At heaps64 i) heap.length with
    | none => ScyllaTestFail
    | some bytes =>
      let heap := store heap bytes
      let flags := dwordAt heap (t.GetHeapFlagsOffset true)
      let force_flags := dwordAt heap (t.GetHeapForceFlagsOffset true)
      if flags &&& bad_flags ≠ 0 ∨ force_flags &&& bad_flags ≠ 0 then
        ScyllaTestDetected
      else
        Check_Wow64PEB64_HeapFlags_loop t heaps64 n (i + 1) heap

/-- The function `Check_Wow64PEB64_HeapFlags`. The two `resize` calls give
zero-filled buffers of `NumberOfHeaps` pointers of 8 bytes and of 0x100 bytes. -/
def Check_Wow64PEB64_HeapFlags (t : Target) : ScyllaTestResult :=
  match t.Wow64GetPeb64 with
  | none => ScyllaTestFail
  | some peb64 =>
    let heaps64 := List.replicate (peb64.NumberOfHeaps * 8) 0
    match t.Wow64ReadProcessMemory64 peb64.ProcessHeaps heaps64.length with
    | none => ScyllaTestFail
    | some bytes =>
      Check_Wow64PEB64_HeapFlags_loop t (store heaps64 bytes) peb64.NumberOfHeaps 0
        (List.replicate 0x100 0)

/-- The function `Check_Wow64PEB64_ProcessParameters`. The declaration of
`scl::RTL_USER_PROCESS_PARAMETERS<DWORD64>` is not part of the sources at hand:
`sizeof_rupp` is its size and `Flags` reads its field `Flags` from the bytes of the
local `rupp`. The source obtains the control block from `scl::GetPebAddress`. -/
def Check_Wow64PEB64_ProcessParameters (t : Target) (sizeof_rupp : Nat)
    (Flags : List Nat → Nat) : ScyllaTestResult :=
  match t.GetPebAddress with
  | none => ScyllaTestFail
  | some peb64 =>
    match t.Wow64ReadProcessMemory64 peb64.ProcessParameters sizeof_rupp with
    | none => ScyllaTestFail
    | some rupp => SCYLLA_TEST_CHECK (decide (Flags rupp &&& 0x4000 ≠ 0))

/-- The function `Check_Wow64PEB64_BeingDebugged`, one of the three sibling
probes that obtain the control block from `scl::Wow64GetPeb64`. -/
def Check_Wow64PEB64_BeingDebugged (t : Target) : ScyllaTestResult :=
  match t.Wow64GetPeb64 with
  | none => ScyllaTestFail
  | some peb64 => SCYLLA_TEST_CHECK (decide (peb64.BeingDebugged = 0))

/-- The probe that claim C6 describes: `Check_Wow64PEB64_ProcessParameters` with
the control block taken from `scl::Wow64GetPeb64`, as the three sibling probes
take it. It is not the function of the source. -/
def Check_Wow64PEB64_ProcessParameters_claimed (t : Target) (sizeof_rupp : Nat)
    (Flags : List Nat → Nat) : ScyllaTestResult :=
  match t.Wow64GetPeb64 with
  | none => ScyllaTestFail
  | some peb64 =>
    match t.Wow64ReadProcessMemory64 peb64.ProcessParameters sizeof_rupp with
    | none => ScyllaTestFail
    | some rupp => SCYLLA_TEST_CHECK (decide (Flags rupp &&& 0x4000 ≠ 0))

/-! ## `Check_NtQuery_OverlappingReturnLength` -/

/-- The system calls of `Check_NtQuery_OverlappingReturnLength`. -/
inductive SysCall where
  | NtQueryInformationProcess_ProcessDebugObjectHandle
  | NtQuerySystemInformation_SystemKernelDebuggerInformation
  | NtCreateDebugObject
  | NtQueryObject_ObjectTypeInformation (Handle : Nat)
  | NtClose (Handle : Nat)
  deriving DecidableEq, Repr

/-- The part of the state of the process that the probe changes: the handles
that are open, and the system calls made so far, oldest first. -/
structure Kernel where
  handles : List Nat
  calls : List SysCall
  deriving DecidableEq, Repr

/-- The answers of the operating system to the calls of the probe. Each query
answers with its status and with the value found at `*pReturnLength` once the
call is over (the probe places that variable inside the buffer that the call
fills). `NtCreateDebugObject` answers with its status and the handle stored in
`DebugObjectHandle`, `NtClose` with its status. The size
`sizeof(OBJECT_TYPE_INFORMATION)` comes from a header that is not part of the
sources at hand. -/
structure OverlapAnswers where
  sizeof_OBJECT_TYPE_INFORMATION : Nat
  NtQueryInformationProcess : Nat × Nat
  NtQuerySystemInformation : Nat × Nat
  NtCreateDebugObject : Nat × Nat
  NtQueryObject : Nat × Nat
  NtClose : Nat

/-- The size `sizeof(HANDLE)` of the build. -/
def sizeof_HANDLE (is_x64 : Bool) : Nat :=
  if is_x64 then 8 else 4

/-- The size `sizeof(SYSTEM_KERNEL_DEBUGGER_INFORMATION)`, a structure of two
`BOOLEAN` fields. -/
def sizeof_SYSTEM_KERNEL_DEBUGGER_INFORMATION : Nat := 2

/-- The size `sizeof(ULONG)`. -/
def sizeof_ULONG : Nat := 4

/-- The state after one more system call. -/
def Kernel.call (k : Kernel) (c : SysCall) : Kernel :=
  { k with calls := k.calls ++ [c] }

/-- The function `Check_NtQuery_OverlappingReturnLength`. A successful
`NtCreateDebugObject` adds its handle to the open handles and a successful
`NtClose` removes it. -/
def Check_NtQuery_OverlappingReturnLength (is_x64 : Bool) (os : OverlapAnswers)
    (k : Kernel) : ScyllaTestResult × Kernel :=
  let k := k.call .NtQueryInformationProcess_ProcessDebugObjectHandle
  let Status := os.NtQueryInformationProcess.1
  if !NT_SUCCESS Status && Status != STATUS_PORT_NOT_SET then
    (ScyllaTestFail, k)
  else if os.NtQueryInformationProcess.2 ≠ sizeof_HANDLE is_x64 then
    (ScyllaTestDetected, k)
  else
    let k := k.call .NtQuerySystemInformation_SystemKernelDebuggerInformation
    if !NT_SUCCESS os.NtQuerySystemInformation.1 then
      (ScyllaTestFail, k)
    else if os.NtQuerySystemInformation.2 ≠ sizeof_SYSTEM_KERNEL_DEBUGGER_INFORMATION then
      (ScyllaTestDetected, k)
    else
      let k := k.call .NtCreateDebugObject
      if !NT_SUCCESS os.NtCreateDebugObject.1 then
        (ScyllaTestFail, k)
      else
        let DebugObjectHandle := os.NtCreateDebugObject.2
        let k := { k with handles := DebugObjectHandle :: k.handles }
        let k := k.call (.NtQueryObject_ObjectTypeInformation DebugObjectHandle)
        if !NT_SUCCESS os.NtQueryObject.1 then
          (ScyllaTestFail, k)
        else if os.NtQueryObject.2 < os.sizeof_OBJECT_TYPE_INFORMATION + sizeof_ULONG then
          (ScyllaTestDetected, k)
        else
          let k := k.call (.NtClose DebugObjectHandle)
          if !NT_SUCCESS os.NtClose then
            (ScyllaTestFail, k)
          else
            (ScyllaTestOk, { k with handles := k.handles.erase DebugObjectHandle })

/-- Answers of an untampered 32-bit system: every call succeeds and every
returned length is the expected one. -/
def answersClean : OverlapAnswers where
  sizeof_OBJECT_TYPE_INFORMATION := 0x60
  NtQueryInformationProcess := (STATUS_PORT_NOT_SET, 4)
  NtQuerySystemInformation := (STATUS_SUCCESS, 2)
  NtCreateDebugObject := (STATUS_SUCCESS, 0x1A4)
  NtQueryObject := (STATUS_SUCCESS, 0x78)
  NtClose := STATUS_SUCCESS

/-- Answers in which the object-type query leaves a length below the threshold;
the debug object has been created with the handle 0x1A4. -/
def answersShortTypeLength : OverlapAnswers :=
  { answersClean with NtQueryObject := (STATUS_SUCCESS, 0) }

/-- Answers in which the object-type query fails; the debug object has been
created with the handle 0x1A4. -/
def answersTypeQueryFails : OverlapAnswers :=
  { answersClean with NtQueryObject := (STATUS_ACCESS_DENIED, 0) }

/-- Answers in which the first query fails with `STATUS_INFO_LENGTH_MISMATCH`
and leaves the length 8 where the 32-bit build expects 4. -/
def answersFirstQueryFails : OverlapAnswers :=
  { answersClean with NtQueryInformationProcess := (STATUS_INFO_LENGTH_MISMATCH, 8) }

/-- Answers in which the first query succeeds and leaves the length 8 where the
32-bit build expects 4. -/
def answersFirstLengthWrong : OverlapAnswers :=
  { answersClean with NtQueryInformationProcess := (STATUS_SUCCESS, 8) }

/-- A state with two open handles and no call made yet. -/
def kernel0 : Kernel := ⟨[4, 8], []⟩

/-! ## The test loop of `wWinMain` -/

/-- The probes of the test loop, named as the argument `x` of `SCYLLA_TEST(x)`
and `SCYLLA_TEST_IF(condition, x)`; the probe function is `Check_x`. -/
inductive Probe where
  | PEB_BeingDebugged
  | Wow64PEB64_BeingDebugged
  | PEB_NtGlobalFlag
  | Wow64PEB64_NtGlobalFlag
  | PEB_HeapFlags
  | Wow64PEB64_HeapFlags
  | PEB_ProcessParameters
  | Wow64PEB64_ProcessParameters
  | IsDebuggerPresent
  | CheckRemoteDebuggerPresent
  | OutputDebugStringA_LastError
  | OutputDebugStringA_Exception
  | OutputDebugStringW_Exception
  | NtQueryInformationProcess_ProcessDebugPort
  | NtQuerySystemInformation_SystemProcessInformation
  | NtQuerySystemInformation_SystemExtendedProcessInformation
  | NtQuerySystemInformation_KernelDebugger
  | NtQuery_OverlappingReturnLength
  | NtClose
  deriving DecidableEq, Repr

/-- What one expansion of `SCYLLA_TEST_IF` does, in order: it prints the name of
the probe, it may call the probe function, it prints a result. -/
inductive ProbeEvent where
  | printf_name (x : Probe)
  | Check (x : Probe)
  | PrintScyllaTestResult (result : ScyllaTestResult)
  deriving DecidableEq, Repr

/-- What `wWinMain` does, in order. `GetRealCurrentProcess` and `NtCreateEvent`
carry the handle they delivered, `NtWaitForSingleObject` the handle waited on and
the status returned, `cycle` stands for one pass of the loop body: the separator
line, the events of the probes, the closing separator line. Console set-up and
tear-down and the messages are not recorded. -/
inductive Event where
  | GetRealCurrentProcess (hRealHandle : Nat)
  | NtCreateEvent (Status : Nat) (EventHandle : Nat)
  | NtWaitForSingleObject (Handle : Nat) (Status : Nat)
  | cycle (lines : List ProbeEvent)
  | NtClose (Handle : Nat)
  deriving DecidableEq, Repr

/-- The three constants of the enumeration `scl::eOsVersion` that `wWinMain`
compares the version with. `Scylla/OsInfo.h` is not part of the sources at hand,
so their values are taken as given. -/
structure OsVersions where
  OS_WIN_XP : Nat
  OS_WIN_VISTA : Nat
  OS_WIN_10 : Nat

/-- The answers of the collaborators that `wWinMain` calls before the loop.
`NtCreateEvent` answers with its status and the handle stored in `g_stopEvent`. -/
structure Host where
  OpenConsole : Bool
  GetRealCurrentProcess : Nat
  GetWindowsVersion : Nat
  IsWow64Process : Bool
  NtCreateEvent : Nat × Nat

/-- The value `INVALID_HANDLE_VALUE`, `(HANDLE)-1`, of the build. -/
def INVALID_HANDLE_VALUE (is_x64 : Bool) : Nat :=
  if is_x64 then 2 ^ 64 - 1 else 2 ^ 32 - 1

/-- The macro `SCYLLA_TEST_IF(condition, x)`. `check x s` is the call `Check_x()`
in the state `s` of the process: it gives the result and the state afterwards. -/
def SCYLLA_TEST_IF {σ : Type} (check : Probe → σ → ScyllaTestResult × σ)
    (condition : Bool) (x : Probe) (s : σ) : List ProbeEvent × σ :=
  if !condition then
    ([.printf_name x, .PrintScyllaTestResult ScyllaTestSkip], s)
  else
    let ret := check x s
    ([.printf_name x, .Check x, .PrintScyllaTestResult ret.1], ret.2)

/-- The nineteen macro expansions of the loop body, in the order of the source,
each with its condition (`SCYLLA_TEST(x)` is `SCYLLA_TEST_IF(true, x)`). -/
def tests (v : OsVersions) (is_wow64 : Bool) (ver : Nat) : List (Bool × Probe) :=
  [ (true, .PEB_BeingDebugged),
    (is_wow64, .Wow64PEB64_BeingDebugged),
    (true, .PEB_NtGlobalFlag),
    (is_wow64, .Wow64PEB64_NtGlobalFlag),
    (true, .PEB_HeapFlags),
    (is_wow64, .Wow64PEB64_HeapFlags),
    (true, .PEB_ProcessParameters),
    (is_wow64, .Wow64PEB64_ProcessParameters),
    (true, .IsDebuggerPresent),
    (true, .CheckRemoteDebuggerPresent),
    (decide (ver < v.OS_WIN_VISTA), .OutputDebugStringA_LastError),
    (true, .OutputDebugStringA_Exception),
    (decide (ver ≥ v.OS_WIN_10), .OutputDebugStringW_Exception),
    (true, .NtQueryInformationProcess_ProcessDebugPort),
    (true, .NtQuerySystemInformation_SystemProcessInformation),
    (true, .NtQuerySystemInformation_SystemExtendedProcessInformation),
    (true, .NtQuerySystemInformation_KernelDebugger),
    (true, .NtQuery_OverlappingReturnLength),
    (true, .NtClose) ]

/-- The macro expansions of a list run one after the other. -/
def runTests {σ : Type} (check : Probe → σ → ScyllaTestResult × σ) :
    List (Bool × Probe) → σ → List ProbeEvent × σ
  | [], s => ([], s)
  | (condition, x) :: rest, s =>
    let r1 := SCYLLA_TEST_IF check condition x s
    let r2 := runTests check rest r1.2
    (r1.1 ++ r2.1, r2.2)

/-- The `while (true)` loop of `wWinMain`. The list holds the statuses that the
successive calls `NtWaitForSingleObject(g_stopEvent, FALSE, &timeout)` return;
`none` means that the list ran out before a wait returned anything else than
`STATUS_TIMEOUT`. -/
def testLoop {σ : Type} (check : Probe → σ → ScyllaTestResult × σ)
    (body : List (Bool × Probe)) (g_stopEvent : Nat) :
    List Nat → σ → Option (List Event × σ)
  | [], _ => none
  | Status :: waits, s =>
    if Status ≠ STATUS_TIMEOUT then
      some ([.NtWaitForSingleObject g_stopEvent Status], s)
    else
      let pass := runTests check body s
      match testLoop check body g_stopEvent waits pass.2 with
      | none => none
      | some r =>
        some (.NtWaitForSingleObject g_stopEvent Status :: .cycle pass.1 :: r.1, r.2)

/-- The function `wWinMain`: the exit code, the events in order, and the state of
the process at the end; `none` when the loop does not leave within the given
waits. -/
def wWinMain {σ : Type} (is_x64 : Bool) (v : OsVersions) (host : Host)
    (check : Probe → σ → ScyllaTestResult × σ) (waits : List Nat) (s : σ) :
    Option (Int × List Event × σ) :=
  if !host.OpenConsole then
    some (-1, [], s)
  else
    let g_proc_handle := host.GetRealCurrentProcess
    if g_proc_handle = INVALID_HANDLE_VALUE is_x64 then
      some (-1, [.GetRealCurrentProcess g_proc_handle], s)
    else
      let ver := host.GetWindowsVersion
      if ver < v.OS_WIN_XP then
        some (-1, [.GetRealCurrentProcess g_proc_handle], s)
      else
        let is_wow64 := host.IsWow64Process
        let g_stopEvent := host.NtCreateEvent.2
        if !NT_SUCCESS host.NtCreateEvent.1 then
          some (-1, [.GetRealCurrentProcess g_proc_handle,
            .NtCreateEvent host.NtCreateEvent.1 g_stopEvent], s)
        else
          match testLoop check (tests v is_wow64 ver) g_stopEvent waits s with
          | none => none
          | some r =>
            some (0, [.GetRealCurrentProcess g_proc_handle,
                .NtCreateEvent host.NtCreateEvent.1 g_stopEvent] ++ r.1 ++
              [.NtClose g_stopEvent, .NtClose g_proc_handle], r.2)

/-- The number of passes of the loop body in a list of events. -/
def cyclesEmitted : List Event → Nat
  | [] => 0
  | .cycle _ :: rest => cyclesEmitted rest + 1
  | _ :: rest => cyclesEmitted rest

/-- The number of calls `NtClose(h)` in a list of events. -/
def timesClosed (h : Nat) (events : List Event) : Nat :=
  events.count (.NtClose h)

/-- The four probes of the alternate view. -/
def wow64Probes : List Probe :=
  [.Wow64PEB64_BeingDebugged, .Wow64PEB64_NtGlobalFlag, .Wow64PEB64_HeapFlags,
    .Wow64PEB64_ProcessParameters]

/-- The constants of `scl::eOsVersion` as samples: the enumeration lists the
versions in increasing order. -/
def sampleVersions : OsVersions := ⟨2, 4, 8⟩

/-- A host on which the start succeeds: the process handle is 0x1F0, the version
is the one of `OS_WIN_10`, the process does not run under WOW64 and the stop
event gets the handle 0x1F4. -/
def sampleHost : Host := ⟨true, 0x1F0, 8, false, (STATUS_SUCCESS, 0x1F4)⟩

/-- The host `sampleHost` with a process that runs under WOW64. -/
def sampleHostWow64 : Host := { sampleHost with IsWow64Process := true }

/-- The host `sampleHost` with a version below `OS_WIN_XP`. -/
def sampleHostOldVersion : Host := { sampleHost with GetWindowsVersion := 0 }

/-- The host `sampleHost` on which `NtCreateEvent` fails. -/
def sampleHostNoEvent : Host :=
  { sampleHost with NtCreateEvent := (STATUS_INSUFFICIENT_RESOURCES, 0) }

/-- Sample probe functions: each call returns `ScyllaTestOk` and the state counts
the calls made. -/
def sampleCheck : Probe → Nat → ScyllaTestResult × Nat :=
  fun _ s => (ScyllaTestOk, s + 1)

/-- The run of `wWinMain` on `sampleHost` with one timeout followed by the
signalled stop event. -/
def sampleRun : Int × List Event × Nat :=
  (wWinMain false sampleVersions sampleHost sampleCheck
    [STATUS_TIMEOUT, STATUS_SUCCESS] 0).getD (0, [], 0)

/-- The run of `wWinMain` on `sampleHostWow64` with one timeout followed by the
signalled stop event. -/
def sampleRunWow64 : Int × List Event × Nat :=
  (wWinMain false sampleVersions sampleHostWow64 sampleCheck
    [STATUS_TIMEOUT, STATUS_SUCCESS] 0).getD (0, [], 0)

/-- The bytes of a synthetic 64-bit heap record whose flags (offset 0x70) are zero
and whose force flags (offset 0x74) are `HEAP_FREE_CHECKING_ENABLED`. -/
def sampleHeapRecord : List Nat :=
  List.replicate 0x74 0 ++ [0x40] ++ List.replicate 0x8B 0

/-- The bytes of a synthetic process-parameters structure whose field `Flags`
(offset 8) is 0x4001. -/
def sampleParameters : List Nat :=
  [0, 0, 0, 0, 0, 0, 0, 0, 0x01, 0x40, 0, 0, 0, 0, 0, 0]

/-- A synthetic target. Its native control block has two heaps, at 0x2000 and
0x3000, and its process parameters at 0x20000 with the flag bit 0x4000 set. Its
alternate control block has two heaps, at 0x6000 and 0x7000, the second one being
`sampleHeapRecord`, and its process parameters at 0x30000 with the flag bit
0x4000 clear. -/
def sampleTarget : Target where
  GetPebAddress := some ⟨0, 0, 0x20000, 2, 0x1000⟩
  Wow64GetPeb64 := some ⟨0, 0, 0x30000, 2, 0x5000⟩
  Wow64ReadProcessMemory64 := fun a n =>
    if a = 0x5000 then
      some (([0, 0x60, 0, 0, 0, 0, 0, 0, 0, 0x70, 0, 0, 0, 0, 0, 0] ++
        List.replicate n 0).take n)
    else if a = 0x7000 then some ((sampleHeapRecord ++ List.replicate n 0).take n)
    else if a = 0x20000 then some ((sampleParameters ++ List.replicate n 0).take n)
    else some (List.replicate n 0)
  memory :=
    ⟨fun a => if a = 0x1000 then 0x2000 else 0x3000,
     fun a => if a = 0x3000 + 0x44 then 0x40 else 0⟩
  GetHeapFlagsOffset := fun x64 => if x64 then 0x70 else 0x40
  GetHeapForceFlagsOffset := fun x64 => if x64 then 0x74 else 0x44

/-- The heap records of the alternate view of `sampleTarget`. -/
def sampleRecords : Nat → List Nat := fun i =>
  if i = 1 then sampleHeapRecord else List.replicate 0x100 0

/-- The bytes of the heap-pointer array of the alternate view of `sampleTarget`. -/
def samplePointers : List Nat :=
  [0, 0x60, 0, 0, 0, 0, 0, 0, 0, 0x70, 0, 0, 0, 0, 0, 0]

/-! # Theorems -/

/-! ## `Check_NtClose` -/

/-- Claim C1 as the specification states it fails: when the close of the handle
0x1337 returns normally (here with the status `STATUS_INVALID_HANDLE`),
`Check_NtClose` returns `ScyllaTestOk`, so "Detected if and only if the call
returns normally" is false on this behaviour. -/
theorem Check_NtClose_normal_return_not_detected :
    Check_NtClose (.returns STATUS_INVALID_HANDLE) = ScyllaTestOk ∧
    ¬ (Check_NtClose (.returns STATUS_INVALID_HANDLE) = ScyllaTestDetected ↔
        (CallBehaviour.returns STATUS_INVALID_HANDLE).returnsNormally = true) := by
  decide

/-- Claim C1, amended: for every behaviour of the close call on the handle 0x1337,
`Check_NtClose` returns `ScyllaTestOk` if and only if the call returns normally,
`ScyllaTestDetected` if and only if the exception `EXCEPTION_INVALID_HANDLE` was
raised (and caught by the handler of the probe), and `ScyllaTestFail` if and only
if an exception with another code was raised; it never returns `ScyllaTestSkip`. -/
theorem Check_NtClose_polarity (b : CallBehaviour) :
    (Check_NtClose b = ScyllaTestOk ↔ b.returnsNormally = true) ∧
    (Check_NtClose b = ScyllaTestDetected ↔ b = .raises EXCEPTION_INVALID_HANDLE) ∧
    (Check_NtClose b = ScyllaTestFail ↔
      ∃ code, code ≠ EXCEPTION_INVALID_HANDLE ∧ b = .raises code) ∧
    Check_NtClose b ≠ ScyllaTestSkip := by
  cases b with
  | returns s => simp [Check_NtClose, CallBehaviour.returnsNormally]
  | raises code =>
    by_cases hc : code = EXCEPTION_INVALID_HANDLE
    · simp [Check_NtClose, CallBehaviour.returnsNormally, hc]
    · simp [Check_NtClose, CallBehaviour.returnsNormally, hc]

/-! ## Process-list scan -/

theorem isExeDetectedIn_iff (l : List wstring) (exe : wstring) :
    isExeDetectedIn l exe = true ↔ exe ∈ l := by
  induction l with
  | nil => simp [isExeDetectedIn]
  | cons item rest ih =>
    by_cases h : item = exe
    · simp [isExeDetectedIn, h]
    · have h2 : ¬ exe = item := fun e => h e.symm
      simp [isExeDetectedIn, h, h2, ih]

theorem isExeDetected_iff (exe : wstring) :
    isExeDetected exe = true ↔ exe ∈ exeToDetect :=
  isExeDetectedIn_iff exeToDetect exe

theorem IsProcessList_head (mem : Nat → SYSTEM_PROCESS_INFORMATION) (p a : Nat)
    (rest : List Nat) (h : IsProcessList mem p (a :: rest)) : a = p := by
  cases rest with
  | nil => exact h.1
  | cons b rest => exact h.1

theorem IsProcessList_ge (mem : Nat → SYSTEM_PROCESS_INFORMATION) (addrs : List Nat) :
    ∀ p, IsProcessList mem p addrs → ∀ a ∈ addrs, p ≤ a := by
  induction addrs with
  | nil => intro p h; exact absurd h (by simp [IsProcessList])
  | cons x rest ih =>
    intro p h a ha
    cases rest with
    | nil =>
      simp only [List.mem_singleton] at ha
      rw [ha, h.1]
    | cons b rest =>
      obtain ⟨hx, _, hrest⟩ := h
      rcases List.mem_cons.mp ha with h1 | h1
      · rw [h1, hx]
      · have := ih _ hrest a h1
        omega

theorem IsProcessList_pairwise (mem : Nat → SYSTEM_PROCESS_INFORMATION)
    (addrs : List Nat) :
    ∀ p, IsProcessList mem p addrs → addrs.Pairwise (· < ·) := by
  induction addrs with
  | nil => intro p h; exact absurd h (by simp [IsProcessList])
  | cons x rest ih =>
    intro p h
    cases rest with
    | nil => simp
    | cons b rest =>
      obtain ⟨hx, hne, hrest⟩ := h
      refine List.pairwise_cons.mpr ⟨?_, ih _ hrest⟩
      intro a ha
      have := IsProcessList_ge mem _ _ hrest a ha
      omega

theorem walkProcessList_succ (mem : Nat → SYSTEM_PROCESS_INFORMATION) (fuel pinfo : Nat) :
    walkProcessList mem (fuel + 1) pinfo =
      if isExeDetected (processName (mem pinfo)) then some ScyllaTestDetected
      else if (mem pinfo).NextEntryOffset = 0 then some ScyllaTestOk
      else walkProcessList mem fuel (pinfo + (mem pinfo).NextEntryOffset) := rfl

theorem walkProcessListTraced_succ (mem : Nat → SYSTEM_PROCESS_INFORMATION)
    (fuel pinfo : Nat) :
    walkProcessListTraced mem (fuel + 1) pinfo =
      if isExeDetected (processName (mem pinfo)) then ([pinfo], some ScyllaTestDetected)
      else if (mem pinfo).NextEntryOffset = 0 then ([pinfo], some ScyllaTestOk)
      else
        (pinfo :: (walkProcessListTraced mem fuel
            (pinfo + (mem pinfo).NextEntryOffset)).1,
          (walkProcessListTraced mem fuel (pinfo + (mem pinfo).NextEntryOffset)).2) := rfl

theorem walkProcessListTraced_result (mem : Nat → SYSTEM_PROCESS_INFORMATION) :
    ∀ fuel pinfo,
      (walkProcessListTraced mem fuel pinfo).2 = walkProcessList mem fuel pinfo := by
  intro fuel
  induction fuel with
  | zero => intro pinfo; rfl
  | succ n ih =>
    intro pinfo
    rw [walkProcessListTraced_succ, walkProcessList_succ]
    split_ifs with h1 h2
    · rfl
    · rfl
    · exact ih _

theorem walkProcessList_spec (mem : Nat → SYSTEM_PROCESS_INFORMATION)
    (addrs : List Nat) :
    ∀ p, IsProcessList mem p addrs →
      walkProcessList mem addrs.length p =
        some (if ∃ a ∈ addrs, isExeDetected (processName (mem a)) = true
              then ScyllaTestDetected else ScyllaTestOk) := by
  induction addrs with
  | nil => intro p h; exact absurd h (by simp [IsProcessList])
  | cons x rest ih =>
    intro p h
    have hx : x = p := IsProcessList_head mem p x rest h
    subst hx
    by_cases hd : isExeDetected (processName (mem x)) = true
    · simp [walkProcessList, hd]
    · cases rest with
      | nil =>
        have h0 : (mem x).NextEntryOffset = 0 := h.2
        simp [walkProcessList, hd, h0]
      | cons b rest =>
        obtain ⟨_, hne, hrest⟩ := h
        have := ih _ hrest
        simp only [List.length_cons] at this
        simp only [List.length_cons]
        rw [walkProcessList_succ, this]
        simp [hd, hne]

theorem walkProcessListTraced_spec (mem : Nat → SYSTEM_PROCESS_INFORMATION)
    (addrs : List Nat) :
    ∀ p, IsProcessList mem p addrs →
      ∃ r visited,
        (∀ fuel, addrs.length ≤ fuel →
          walkProcessListTraced mem fuel p = (visited, some r)) ∧
        visited <+: addrs ∧
        visited ≠ [] ∧
        (∀ a ∈ visited.dropLast,
          isExeDetected (processName (mem a)) = false ∧ (mem a).NextEntryOffset ≠ 0) ∧
        (∀ a, visited.getLast? = some a →
          (isExeDetected (processName (mem a)) = true ∧ r = ScyllaTestDetected) ∨
          (isExeDetected (processName (mem a)) = false ∧
            (mem a).NextEntryOffset = 0 ∧ r = ScyllaTestOk)) := by
  induction addrs with
  | nil => intro p h; exact absurd h (by simp [IsProcessList])
  | cons x rest ih =>
    intro p h
    have hx : x = p := IsProcessList_head mem p x rest h
    subst hx
    by_cases hd : isExeDetected (processName (mem x)) = true
    · refine ⟨ScyllaTestDetected, [x], ?_, ?_, by simp, by simp, ?_⟩
      · intro fuel hf
        obtain ⟨m, rfl⟩ : ∃ m, fuel = m + 1 := ⟨fuel - 1, by simp at hf; omega⟩
        rw [walkProcessListTraced_succ, if_pos hd]
      · simp [List.prefix_cons_inj]
      · intro a ha
        simp at ha
        subst ha
        exact Or.inl ⟨hd, rfl⟩
    · have hdf : isExeDetected (processName (mem x)) = false := by simpa using hd
      cases rest with
      | nil =>
        have h0 : (mem x).NextEntryOffset = 0 := h.2
        refine ⟨ScyllaTestOk, [x], ?_, ?_, by simp, by simp, ?_⟩
        · intro fuel hf
          obtain ⟨m, rfl⟩ : ∃ m, fuel = m + 1 := ⟨fuel - 1, by simp at hf; omega⟩
          rw [walkProcessListTraced_succ, if_neg hd, if_pos h0]
        · exact List.prefix_refl _
        · intro a ha
          simp at ha
          subst ha
          exact Or.inr ⟨hdf, h0, rfl⟩
      | cons b rest =>
        obtain ⟨_, hne, hrest⟩ := h
        obtain ⟨r, v, i0, i1, i2, i3, i4⟩ := ih _ hrest
        refine ⟨r, x :: v, ?_, ?_, by simp, ?_, ?_⟩
        · intro fuel hf
          obtain ⟨m, rfl⟩ : ∃ m, fuel = m + 1 := ⟨fuel - 1, by simp at hf; omega⟩
          have hm : (b :: rest).length ≤ m := by simp at hf ⊢; omega
          rw [walkProcessListTraced_succ, if_neg hd, if_neg hne, i0 m hm]
        · exact (List.prefix_cons_inj x).mpr i1
        · intro a ha
          rw [List.dropLast_cons_of_ne_nil i2] at ha
          rcases List.mem_cons.mp ha with h1 | h1
          · subst h1
            exact ⟨hdf, hne⟩
          · exact i3 a h1
        · intro a ha
          obtain ⟨y, ys, hy⟩ := List.exists_cons_of_ne_nil i2
          rw [hy, List.getLast?_cons_cons, ← hy] at ha
          exact i4 a ha

/-- Claim C3: on a well-formed process list (records chained by `NextEntryOffset`,
the last one with `NextEntryOffset = 0`) `walkProcessList` returns, and it returns
`ScyllaTestDetected` if and only if some record of the chain has an image name
equal, code unit for code unit, to one of the names of `exeToDetect`, and
`ScyllaTestOk` otherwise; a record with a null image-name buffer has the empty
name, which is not in the list; the list holds exactly the nine names, and a name
that differs only in case is not detected. -/
theorem walkProcessList_detected_iff (mem : Nat → SYSTEM_PROCESS_INFORMATION)
    (p : Nat) (addrs : List Nat) (h : IsProcessList mem p addrs) :
    (∃ r, walkProcessList mem addrs.length p = some r ∧
      (r = ScyllaTestDetected ↔
        ∃ a ∈ addrs, ∃ item ∈ exeToDetect, processName (mem a) = item) ∧
      (r = ScyllaTestOk ↔
        ¬ ∃ a ∈ addrs, ∃ item ∈ exeToDetect, processName (mem a) = item)) ∧
    (∀ a, (mem a).ImageName_Buffer = none →
      processName (mem a) = [] ∧ isExeDetected (processName (mem a)) = false) ∧
    exeToDetect = [L "ollydbg.exe", L "idaq.exe", L "idaq64.exe", L "ida.exe",
      L "ida64.exe", L "idat.exe", L "idat64.exe", L "x32dbg.exe", L "x64dbg.exe"] ∧
    isExeDetected (L "X64DBG.EXE") = false := by
  refine ⟨?_, ?_, rfl, by decide⟩
  · have hiff : (∃ a ∈ addrs, isExeDetected (processName (mem a)) = true) ↔
        ∃ a ∈ addrs, ∃ item ∈ exeToDetect, processName (mem a) = item := by
      constructor
      · rintro ⟨a, ha, hd⟩
        exact ⟨a, ha, _, (isExeDetected_iff _).mp hd, rfl⟩
      · rintro ⟨a, ha, item, hi, he⟩
        exact ⟨a, ha, (isExeDetected_iff _).mpr (he ▸ hi)⟩
    refine ⟨_, walkProcessList_spec mem addrs p h, ?_, ?_⟩
    · rw [← hiff]
      by_cases hex : ∃ a ∈ addrs, isExeDetected (processName (mem a)) = true
      · simp [hex]
      · simp [hex]
    · rw [← hiff]
      by_cases hex : ∃ a ∈ addrs, isExeDetected (processName (mem a)) = true
      · simp [hex]
      · simp [hex]
  · intro a ha
    have hn : processName (mem a) = [] := by
      simp [processName, ha, L]
    rw [hn]
    exact ⟨rfl, by decide⟩

/-- Witness for C3: the synthetic list with a record named `x64dbg.exe` is
well-formed, and the theorem applies to it. -/
theorem walkProcessList_detected_iff_witness :
    IsProcessList sampleListWith 0 [0, 0x100, 0x220] ∧
    walkProcessList sampleListWith 3 0 = some ScyllaTestDetected ∧
    walkProcessList sampleListWithout 2 0 = some ScyllaTestOk ∧
    (∃ r, walkProcessList sampleListWith [0, 0x100, 0x220].length 0 = some r ∧
      (r = ScyllaTestDetected ↔
        ∃ a ∈ [0, 0x100, 0x220], ∃ item ∈ exeToDetect,
          processName (sampleListWith a) = item) ∧
      (r = ScyllaTestOk ↔
        ¬ ∃ a ∈ [0, 0x100, 0x220], ∃ item ∈ exeToDetect,
          processName (sampleListWith a) = item)) :=
  ⟨by simp [IsProcessList, sampleListWith], by decide, by decide,
    (walkProcessList_detected_iff sampleListWith 0 [0, 0x100, 0x220]
      (by simp [IsProcessList, sampleListWith])).1⟩

/-- Claim C10: on a process list whose records are chained by strictly positive
`NextEntryOffset` values and whose last record has `NextEntryOffset = 0`, the walk
terminates: with any fuel of at least the number of records, `walkProcessList`
returns one and the same result `r`, and the traced loop, whose result is the
result of `walkProcessList` for every fuel and every start address, runs its body
on one and the same list of records. These visited records are an initial segment
of the chain, without repetition and not empty; every visited record but the last
is neither watch-listed nor terminal; the last visited record is either
watch-listed, and then `r` is `ScyllaTestDetected`, or not watch-listed and
terminal, and then `r` is `ScyllaTestOk`. -/
theorem walkProcessList_terminates (mem : Nat → SYSTEM_PROCESS_INFORMATION)
    (p : Nat) (addrs : List Nat) (h : IsProcessList mem p addrs) :
    (∀ fuel q, (walkProcessListTraced mem fuel q).2 = walkProcessList mem fuel q) ∧
    ∃ r visited,
      (∀ fuel, addrs.length ≤ fuel → walkProcessList mem fuel p = some r) ∧
      (∀ fuel, addrs.length ≤ fuel →
        walkProcessListTraced mem fuel p = (visited, some r)) ∧
      visited <+: addrs ∧
      visited.Nodup ∧
      visited ≠ [] ∧
      (∀ a ∈ visited.dropLast,
        isExeDetected (processName (mem a)) = false ∧ (mem a).NextEntryOffset ≠ 0) ∧
      (∀ a, visited.getLast? = some a →
        (isExeDetected (processName (mem a)) = true ∧ r = ScyllaTestDetected) ∨
        (isExeDetected (processName (mem a)) = false ∧
          (mem a).NextEntryOffset = 0 ∧ r = ScyllaTestOk)) := by
  obtain ⟨r, v, v0, v1, v2, v3, v4⟩ := walkProcessListTraced_spec mem addrs p h
  refine ⟨walkProcessListTraced_result mem, r, v, ?_, v0, v1, ?_, v2, v3, v4⟩
  · intro fuel hf
    rw [← walkProcessListTraced_result mem fuel p, v0 fuel hf]
  · have hnd : addrs.Nodup :=
      (IsProcessList_pairwise mem addrs p h).imp (fun hlt => Nat.ne_of_lt hlt)
    exact hnd.sublist v1.sublist

/-- Witness for C10: the synthetic two-record list is well-formed; the walk visits
both of its records and returns `ScyllaTestOk`, and on the three-record list it
stops at the second record, the watch-listed one. -/
theorem walkProcessList_terminates_witness :
    IsProcessList sampleListWithout 0 [0, 0x220] ∧
    walkProcessListTraced sampleListWithout 2 0 = ([0, 0x220], some ScyllaTestOk) ∧
    walkProcessListTraced sampleListWith 3 0 = ([0, 0x100], some ScyllaTestDetected) ∧
    (∃ r visited,
      (∀ fuel, [0, 0x220].length ≤ fuel →
        walkProcessList sampleListWithout fuel 0 = some r) ∧
      (∀ fuel, [0, 0x220].length ≤ fuel →
        walkProcessListTraced sampleListWithout fuel 0 = (visited, some r)) ∧
      visited <+: [0, 0x220] ∧
      visited.Nodup ∧
      visited ≠ [] ∧
      (∀ a ∈ visited.dropLast,
        isExeDetected (processName (sampleListWithout a)) = false ∧
          (sampleListWithout a).NextEntryOffset ≠ 0) ∧
      (∀ a, visited.getLast? = some a →
        (isExeDetected (processName (sampleListWithout a)) = true ∧
          r = ScyllaTestDetected) ∨
        (isExeDetected (processName (sampleListWithout a)) = false ∧
          (sampleListWithout a).NextEntryOffset = 0 ∧ r = ScyllaTestOk))) :=
  ⟨by simp [IsProcessList, sampleListWithout], by decide, by decide,
    (walkProcessList_terminates sampleListWithout 0 [0, 0x220]
      (by simp [IsProcessList, sampleListWithout])).2⟩

/-! ## Heap runtime flags -/

theorem detected_ok_iff (r : ScyllaTestResult) (P : Prop)
    (h1 : P → r = ScyllaTestDetected) (h2 : ¬ P → r = ScyllaTestOk) :
    (r = ScyllaTestDetected ↔ P) ∧ (r = ScyllaTestOk ↔ ¬ P) := by
  by_cases hp : P
  · have := h1 hp
    subst this
    simp [hp]
  · have := h2 hp
    subst this
    simp [hp]

theorem Check_PEB_HeapFlags_loop_spec (t : Target) (is_x64 : Bool) (heaps : Nat) :
    ∀ n i,
      ((∃ j, i ≤ j ∧ j < i + n ∧
          (t.memory.dword (t.memory.ptr (heaps + j * sizeofPtr is_x64) +
              t.GetHeapFlagsOffset is_x64) &&& bad_flags ≠ 0 ∨
            t.memory.dword (t.memory.ptr (heaps + j * sizeofPtr is_x64) +
              t.GetHeapForceFlagsOffset is_x64) &&& bad_flags ≠ 0)) →
        Check_PEB_HeapFlags_loop t is_x64 heaps n i = ScyllaTestDetected) ∧
      ((¬ ∃ j, i ≤ j ∧ j < i + n ∧
          (t.memory.dword (t.memory.ptr (heaps + j * sizeofPtr is_x64) +
              t.GetHeapFlagsOffset is_x64) &&& bad_flags ≠ 0 ∨
            t.memory.dword (t.memory.ptr (heaps + j * sizeofPtr is_x64) +
              t.GetHeapForceFlagsOffset is_x64) &&& bad_flags ≠ 0)) →
        Check_PEB_HeapFlags_loop t is_x64 heaps n i = ScyllaTestOk) := by
  intro n
  induction n with
  | zero =>
    intro i
    refine ⟨?_, fun _ => rfl⟩
    rintro ⟨j, h1, h2, _⟩
    omega
  | succ n ih =>
    intro i
    by_cases hb :
        t.memory.dword (t.memory.ptr (heaps + i * sizeofPtr is_x64) +
            t.GetHeapFlagsOffset is_x64) &&& bad_flags ≠ 0 ∨
          t.memory.dword (t.memory.ptr (heaps + i * sizeofPtr is_x64) +
            t.GetHeapForceFlagsOffset is_x64) &&& bad_flags ≠ 0
    · refine ⟨fun _ => ?_, fun hno => ?_⟩
      · simp only [Check_PEB_HeapFlags_loop]
        rw [if_pos hb]
      · exact absurd ⟨i, le_refl i, by omega, hb⟩ hno
    · have hstep : Check_PEB_HeapFlags_loop t is_x64 heaps (n + 1) i =
          Check_PEB_HeapFlags_loop t is_x64 heaps n (i + 1) := by
        simp only [Check_PEB_HeapFlags_loop]
        rw [if_neg hb]
      rw [hstep]
      refine ⟨fun hex => (ih (i + 1)).1 ?_, fun hno => (ih (i + 1)).2 ?_⟩
      · obtain ⟨j, h1, h2, h3⟩ := hex
        have hne : j ≠ i := fun e => hb (e ▸ h3)
        exact ⟨j, by omega, by omega, h3⟩
      · rintro ⟨j, h1, h2, h3⟩
        exact hno ⟨j, by omega, by omega, h3⟩

theorem store_full (buffer bytes : List Nat) (h : bytes.length = buffer.length) :
    store buffer bytes = bytes := by
  unfold store
  rw [← h, List.take_length, h, List.drop_length, List.append_nil]

theorem Check_Wow64PEB64_HeapFlags_loop_spec (t : Target) (heaps64 : List Nat)
    (recs : Nat → List Nat) :
    ∀ n i heap, heap.length = 0x100 →
      (∀ j, i ≤ j → j < i + n →
        t.Wow64ReadProcessMemory64 (pvoid64At heaps64 j) 0x100 = some (recs j) ∧
          (recs j).length = 0x100) →
      ((∃ j, i ≤ j ∧ j < i + n ∧
          (dwordAt (recs j) (t.GetHeapFlagsOffset true) &&& bad_flags ≠ 0 ∨
            dwordAt (recs j) (t.GetHeapForceFlagsOffset true) &&& bad_flags ≠ 0)) →
        Check_Wow64PEB64_HeapFlags_loop t heaps64 n i heap = ScyllaTestDetected) ∧
      ((¬ ∃ j, i ≤ j ∧ j < i + n ∧
          (dwordAt (recs j) (t.GetHeapFlagsOffset true) &&& bad_flags ≠ 0 ∨
            dwordAt (recs j) (t.GetHeapForceFlagsOffset true) &&& bad_flags ≠ 0)) →
        Check_Wow64PEB64_HeapFlags_loop t heaps64 n i heap = ScyllaTestOk) := by
  intro n
  induction n with
  | zero =>
    intro i heap _ _
    refine ⟨?_, fun _ => rfl⟩
    rintro ⟨j, h1, h2, _⟩
    omega
  | succ n ih =>
    intro i heap hlen hrd
    obtain ⟨hri, hrl⟩ := hrd i (le_refl i) (by omega)
    have hst : store heap (recs i) = recs i := store_full _ _ (by rw [hrl, hlen])
    by_cases hb :
        dwordAt (recs i) (t.GetHeapFlagsOffset true) &&& bad_flags ≠ 0 ∨
          dwordAt (recs i) (t.GetHeapForceFlagsOffset true) &&& bad_flags ≠ 0
    · refine ⟨fun _ => ?_, fun hno => ?_⟩
      · simp only [Check_Wow64PEB64_HeapFlags_loop, hlen, hri, hst]
        rw [if_pos hb]
      · exact absurd ⟨i, le_refl i, by omega, hb⟩ hno
    · have hstep : Check_Wow64PEB64_HeapFlags_loop t heaps64 (n + 1) i heap =
          Check_Wow64PEB64_HeapFlags_loop t heaps64 n (i + 1) (recs i) := by
        simp only [Check_Wow64PEB64_HeapFlags_loop, hlen, hri, hst]
        rw [if_neg hb]
      rw [hstep]
      have hrd2 : ∀ j, i + 1 ≤ j → j < i + 1 + n →
          t.Wow64ReadProcessMemory64 (pvoid64At heaps64 j) 0x100 = some (recs j) ∧
            (recs j).length = 0x100 :=
        fun j h1 h2 => hrd j (by omega) (by omega)
      refine ⟨fun hex => (ih (i + 1) (recs i) hrl hrd2).1 ?_,
        fun hno => (ih (i + 1) (recs i) hrl hrd2).2 ?_⟩
      · obtain ⟨j, h1, h2, h3⟩ := hex
        have hne : j ≠ i := fun e => hb (e ▸ h3)
        exact ⟨j, by omega, by omega, h3⟩
      · rintro ⟨j, h1, h2, h3⟩
        exact hno ⟨j, by omega, by omega, h3⟩

/-- Claim C2: when the control block is resolved and every read succeeds (a read
that succeeds delivers the number of bytes asked for), `Check_PEB_HeapFlags` and
`Check_Wow64PEB64_HeapFlags` return `ScyllaTestDetected` if and only if, for some
index below `NumberOfHeaps`, the flags or the force flags of that heap record
intersect `bad_flags`, and `ScyllaTestOk` if and only if no record does; an empty
heap array gives `ScyllaTestOk`, and a record whose force flags alone intersect
the mask gives `ScyllaTestDetected`; `bad_flags` is the union of the four named
flags. -/
theorem heapFlags_detected_iff (t : Target) (is_x64 : Bool) :
    (∀ peb, t.GetPebAddress = some peb →
      (Check_PEB_HeapFlags t is_x64 = ScyllaTestDetected ↔
        ∃ i, i < peb.NumberOfHeaps ∧
          (t.memory.dword (t.memory.ptr (peb.ProcessHeaps + i * sizeofPtr is_x64) +
              t.GetHeapFlagsOffset is_x64) &&& bad_flags ≠ 0 ∨
            t.memory.dword (t.memory.ptr (peb.ProcessHeaps + i * sizeofPtr is_x64) +
              t.GetHeapForceFlagsOffset is_x64) &&& bad_flags ≠ 0)) ∧
      (Check_PEB_HeapFlags t is_x64 = ScyllaTestOk ↔
        ¬ ∃ i, i < peb.NumberOfHeaps ∧
          (t.memory.dword (t.memory.ptr (peb.ProcessHeaps + i * sizeofPtr is_x64) +
              t.GetHeapFlagsOffset is_x64) &&& bad_flags ≠ 0 ∨
            t.memory.dword (t.memory.ptr (peb.ProcessHeaps + i * sizeofPtr is_x64) +
              t.GetHeapForceFlagsOffset is_x64) &&& bad_flags ≠ 0)) ∧
      (peb.NumberOfHeaps = 0 → Check_PEB_HeapFlags t is_x64 = ScyllaTestOk) ∧
      (∀ i, i < peb.NumberOfHeaps →
        t.memory.dword (t.memory.ptr (peb.ProcessHeaps + i * sizeofPtr is_x64) +
          t.GetHeapFlagsOffset is_x64) &&& bad_flags = 0 →
        t.memory.dword (t.memory.ptr (peb.ProcessHeaps + i * sizeofPtr is_x64) +
          t.GetHeapForceFlagsOffset is_x64) &&& bad_flags ≠ 0 →
        Check_PEB_HeapFlags t is_x64 = ScyllaTestDetected)) ∧
    (∀ (peb64 : PEB) (arr : List Nat) (recs : Nat → List Nat),
      t.Wow64GetPeb64 = some peb64 →
      t.Wow64ReadProcessMemory64 peb64.ProcessHeaps (peb64.NumberOfHeaps * 8) =
        some arr →
      arr.length = peb64.NumberOfHeaps * 8 →
      (∀ i, i < peb64.NumberOfHeaps →
        t.Wow64ReadProcessMemory64 (pvoid64At arr i) 0x100 = some (recs i) ∧
          (recs i).length = 0x100) →
      (Check_Wow64PEB64_HeapFlags t = ScyllaTestDetected ↔
        ∃ i, i < peb64.NumberOfHeaps ∧
          (dwordAt (recs i) (t.GetHeapFlagsOffset true) &&& bad_flags ≠ 0 ∨
            dwordAt (recs i) (t.GetHeapForceFlagsOffset true) &&& bad_flags ≠ 0)) ∧
      (Check_Wow64PEB64_HeapFlags t = ScyllaTestOk ↔
        ¬ ∃ i, i < peb64.NumberOfHeaps ∧
          (dwordAt (recs i) (t.GetHeapFlagsOffset true) &&& bad_flags ≠ 0 ∨
            dwordAt (recs i) (t.GetHeapForceFlagsOffset true) &&& bad_flags ≠ 0)) ∧
      (peb64.NumberOfHeaps = 0 → Check_Wow64PEB64_HeapFlags t = ScyllaTestOk) ∧
      (∀ i, i < peb64.NumberOfHeaps →
        dwordAt (recs i) (t.GetHeapFlagsOffset true) &&& bad_flags = 0 →
        dwordAt (recs i) (t.GetHeapForceFlagsOffset true) &&& bad_flags ≠ 0 →
        Check_Wow64PEB64_HeapFlags t = ScyllaTestDetected)) ∧
    bad_flags = (HEAP_TAIL_CHECKING_ENABLED ||| HEAP_FREE_CHECKING_ENABLED |||
      HEAP_SKIP_VALIDATION_CHECKS ||| HEAP_VALIDATE_PARAMETERS_ENABLED) := by
  refine ⟨?_, ?_, rfl⟩
  · intro peb hpeb
    have hn : Check_PEB_HeapFlags t is_x64 =
        Check_PEB_HeapFlags_loop t is_x64 peb.ProcessHeaps peb.NumberOfHeaps 0 := by
      simp only [Check_PEB_HeapFlags, hpeb]
    have ln := Check_PEB_HeapFlags_loop_spec t is_x64 peb.ProcessHeaps
      peb.NumberOfHeaps 0
    simp only [Nat.zero_le, true_and, Nat.zero_add] at ln
    rw [← hn] at ln
    have en := detected_ok_iff _ _ ln.1 ln.2
    refine ⟨en.1, en.2, ?_, ?_⟩
    · intro h0
      exact en.2.mpr (by rintro ⟨i, hi, _⟩; omega)
    · intro i hi _ hf
      exact en.1.mpr ⟨i, hi, Or.inr hf⟩
  · intro peb64 arr recs hpeb64 harr harrlen hrec
    have hst : store (List.replicate (peb64.NumberOfHeaps * 8) 0) arr = arr :=
      store_full _ _ (by rw [harrlen, List.length_replicate])
    have hw : Check_Wow64PEB64_HeapFlags t =
        Check_Wow64PEB64_HeapFlags_loop t arr peb64.NumberOfHeaps 0
          (List.replicate 0x100 0) := by
      simp only [Check_Wow64PEB64_HeapFlags, hpeb64, List.length_replicate, harr, hst]
    have lw := Check_Wow64PEB64_HeapFlags_loop_spec t arr recs peb64.NumberOfHeaps 0
      (List.replicate 0x100 0) (List.length_replicate _ _)
      (fun j _ h2 => hrec j (by omega))
    simp only [Nat.zero_le, true_and, Nat.zero_add] at lw
    rw [← hw] at lw
    have ew := detected_ok_iff _ _ lw.1 lw.2
    refine ⟨ew.1, ew.2, ?_, ?_⟩
    · intro h0
      exact ew.2.mpr (by rintro ⟨i, hi, _⟩; omega)
    · intro i hi _ hf
      exact ew.1.mpr ⟨i, hi, Or.inr hf⟩

set_option maxRecDepth 100000 in
/-- Witness for C2: the synthetic target satisfies the hypotheses of both parts.
Its native 32-bit view has a heap whose force flags alone are bad, and its
alternate view has such a heap record too: both probes return
`ScyllaTestDetected`; read as a 64-bit build, the native view is clean. -/
theorem heapFlags_detected_iff_witness :
    Check_PEB_HeapFlags sampleTarget false = ScyllaTestDetected ∧
    Check_PEB_HeapFlags sampleTarget true = ScyllaTestOk ∧
    Check_Wow64PEB64_HeapFlags sampleTarget = ScyllaTestDetected ∧
    (Check_PEB_HeapFlags sampleTarget false = ScyllaTestDetected ↔
      ∃ i, i < 2 ∧
        (sampleTarget.memory.dword (sampleTarget.memory.ptr (0x1000 + i * sizeofPtr false) +
            sampleTarget.GetHeapFlagsOffset false) &&& bad_flags ≠ 0 ∨
          sampleTarget.memory.dword (sampleTarget.memory.ptr (0x1000 + i * sizeofPtr false) +
            sampleTarget.GetHeapForceFlagsOffset false) &&& bad_flags ≠ 0)) ∧
    (Check_Wow64PEB64_HeapFlags sampleTarget = ScyllaTestDetected ↔
      ∃ i, i < 2 ∧
        (dwordAt (sampleRecords i) (sampleTarget.GetHeapFlagsOffset true) &&&
            bad_flags ≠ 0 ∨
          dwordAt (sampleRecords i) (sampleTarget.GetHeapForceFlagsOffset true) &&&
            bad_flags ≠ 0)) :=
  ⟨by decide, by decide, by decide,
    ((heapFlags_detected_iff sampleTarget false).1 ⟨0, 0, 0x20000, 2, 0x1000⟩ rfl).1,
    ((heapFlags_detected_iff sampleTarget false).2.1 ⟨0, 0, 0x30000, 2, 0x5000⟩
      samplePointers sampleRecords rfl (by decide) (by decide)
      (by
        intro i hi
        have hi2 : i < 2 := hi
        interval_cases i
        · exact ⟨by decide, by decide⟩
        · exact ⟨by decide, by decide⟩)).1⟩

/-! ## Alternate-view process parameters -/

/-- Claim C6 fails on the code: `Check_Wow64PEB64_ProcessParameters` never
consults the control block of `Wow64GetPeb64` (replacing it by any other answer
leaves the outcome unchanged). On the synthetic target, whose native block points
to a structure with the flag bit 0x4000 set and whose alternate block points to a
different structure with that bit clear, the function returns `ScyllaTestOk`,
where the probe of the claim returns `ScyllaTestDetected`; the sibling probe
`Check_Wow64PEB64_BeingDebugged` does depend on the alternate block. -/
theorem Check_Wow64PEB64_ProcessParameters_ignores_alternate_block :
    (∀ (t : Target) (alt : Option PEB) (n : Nat) (F : List Nat → Nat),
      Check_Wow64PEB64_ProcessParameters { t with Wow64GetPeb64 := alt } n F =
        Check_Wow64PEB64_ProcessParameters t n F) ∧
    (∃ peb peb64 rupp rupp64,
      sampleTarget.GetPebAddress = some peb ∧
      sampleTarget.Wow64GetPeb64 = some peb64 ∧
      peb.ProcessParameters ≠ peb64.ProcessParameters ∧
      sampleTarget.Wow64ReadProcessMemory64 peb.ProcessParameters 16 = some rupp ∧
      sampleTarget.Wow64ReadProcessMemory64 peb64.ProcessParameters 16 = some rupp64 ∧
      dwordAt rupp 8 &&& 0x4000 ≠ 0 ∧
      dwordAt rupp64 8 &&& 0x4000 = 0) ∧
    Check_Wow64PEB64_ProcessParameters sampleTarget 16 (fun b => dwordAt b 8) =
      ScyllaTestOk ∧
    Check_Wow64PEB64_ProcessParameters_claimed sampleTarget 16 (fun b => dwordAt b 8) =
      ScyllaTestDetected ∧
    Check_Wow64PEB64_BeingDebugged
        { sampleTarget with Wow64GetPeb64 := some ⟨1, 0, 0x30000, 2, 0x5000⟩ } ≠
      Check_Wow64PEB64_BeingDebugged sampleTarget := by
  refine ⟨fun t alt n F => rfl, ?_, by decide, by decide, by decide⟩
  exact ⟨⟨0, 0, 0x20000, 2, 0x1000⟩, ⟨0, 0, 0x30000, 2, 0x5000⟩, sampleParameters,
    List.replicate 16 0, rfl, rfl, by decide, by decide, by decide, by decide, by decide⟩

/-! ## `Check_NtQuery_OverlappingReturnLength` -/

/-- Claim C4 fails on the code: after the debug object has been created, the
function returns `ScyllaTestDetected` (object-type length below the threshold)
and `ScyllaTestFail` (object-type query failed) without a call of `NtClose`, and
the handle of the debug object stays among the open handles; only the path that
returns `ScyllaTestOk` closes it. -/
theorem Check_NtQuery_OverlappingReturnLength_leaks_debug_object :
    Check_NtQuery_OverlappingReturnLength false answersShortTypeLength kernel0 =
      (ScyllaTestDetected,
        ⟨[0x1A4, 4, 8],
         [.NtQueryInformationProcess_ProcessDebugObjectHandle,
          .NtQuerySystemInformation_SystemKernelDebuggerInformation,
          .NtCreateDebugObject,
          .NtQueryObject_ObjectTypeInformation 0x1A4]⟩) ∧
    Check_NtQuery_OverlappingReturnLength false answersTypeQueryFails kernel0 =
      (ScyllaTestFail,
        ⟨[0x1A4, 4, 8],
         [.NtQueryInformationProcess_ProcessDebugObjectHandle,
          .NtQuerySystemInformation_SystemKernelDebuggerInformation,
          .NtCreateDebugObject,
          .NtQueryObject_ObjectTypeInformation 0x1A4]⟩) ∧
    (Check_NtQuery_OverlappingReturnLength false answersShortTypeLength kernel0).2.handles ≠
      kernel0.handles ∧
    Check_NtQuery_OverlappingReturnLength false answersClean kernel0 =
      (ScyllaTestOk,
        ⟨[4, 8],
         [.NtQueryInformationProcess_ProcessDebugObjectHandle,
          .NtQuerySystemInformation_SystemKernelDebuggerInformation,
          .NtCreateDebugObject,
          .NtQueryObject_ObjectTypeInformation 0x1A4,
          .NtClose 0x1A4]⟩) ∧
    (∀ (is_x64 : Bool) (os : OverlapAnswers) (k : Kernel),
      (NT_SUCCESS os.NtQueryInformationProcess.1 = true ∨
        os.NtQueryInformationProcess.1 = STATUS_PORT_NOT_SET) →
      os.NtQueryInformationProcess.2 = sizeof_HANDLE is_x64 →
      NT_SUCCESS os.NtQuerySystemInformation.1 = true →
      os.NtQuerySystemInformation.2 = sizeof_SYSTEM_KERNEL_DEBUGGER_INFORMATION →
      NT_SUCCESS os.NtCreateDebugObject.1 = true →
      (NT_SUCCESS os.NtQueryObject.1 = false ∨
        os.NtQueryObject.2 < os.sizeof_OBJECT_TYPE_INFORMATION + sizeof_ULONG) →
      (Check_NtQuery_OverlappingReturnLength is_x64 os k).2.handles =
          os.NtCreateDebugObject.2 :: k.handles ∧
        (Check_NtQuery_OverlappingReturnLength is_x64 os k).2.calls =
          k.calls ++
            [.NtQueryInformationProcess_ProcessDebugObjectHandle,
             .NtQuerySystemInformation_SystemKernelDebuggerInformation,
             .NtCreateDebugObject,
             .NtQueryObject_ObjectTypeInformation os.NtCreateDebugObject.2]) := by
  refine ⟨by decide, by decide, by decide, by decide, ?_⟩
  intro is_x64 os k h1 h2 h3 h4 h5 h6
  have hg : (!NT_SUCCESS os.NtQueryInformationProcess.1 &&
      os.NtQueryInformationProcess.1 != STATUS_PORT_NOT_SET) = false := by
    rcases h1 with h | h
    · simp [h]
    · simp [h]
  rcases h6 with h6 | h6
  · simp [Check_NtQuery_OverlappingReturnLength, hg, h2, h3, h4, h5, h6, Kernel.call]
  · cases h7 : NT_SUCCESS os.NtQueryObject.1
    · simp [Check_NtQuery_OverlappingReturnLength, hg, h2, h3, h4, h5, h7, Kernel.call]
    · simp [Check_NtQuery_OverlappingReturnLength, hg, h2, h3, h4, h5, h6, h7,
        Kernel.call]

/-- Claim C8 as the specification states it fails: when the first query fails
with a status other than `STATUS_PORT_NOT_SET` (here
`STATUS_INFO_LENGTH_MISMATCH`) and leaves a length different from
`sizeof(HANDLE)`, the function returns `ScyllaTestFail`, not
`ScyllaTestDetected`. -/
theorem Check_NtQuery_OverlappingReturnLength_first_query_fails :
    answersFirstQueryFails.NtQueryInformationProcess.2 ≠ sizeof_HANDLE false ∧
    (Check_NtQuery_OverlappingReturnLength false answersFirstQueryFails kernel0).1 =
      ScyllaTestFail ∧
    (Check_NtQuery_OverlappingReturnLength false answersFirstQueryFails kernel0).1 ≠
      ScyllaTestDetected ∧
    (Check_NtQuery_OverlappingReturnLength false answersFirstQueryFails kernel0).2 =
      ⟨[4, 8], [.NtQueryInformationProcess_ProcessDebugObjectHandle]⟩ := by
  decide

/-- Claim C8, amended: whenever the first query succeeds or answers
`STATUS_PORT_NOT_SET`, and leaves a returned length different from
`sizeof(HANDLE)`, the function returns `ScyllaTestDetected`, the first query is
the only system call it makes (no kernel-debugger query, no debug-object
creation, no object-type query, no close) and the open handles are unchanged. -/
theorem Check_NtQuery_OverlappingReturnLength_short_circuit (is_x64 : Bool)
    (os : OverlapAnswers) (k : Kernel)
    (hstatus : NT_SUCCESS os.NtQueryInformationProcess.1 = true ∨
      os.NtQueryInformationProcess.1 = STATUS_PORT_NOT_SET)
    (hlen : os.NtQueryInformationProcess.2 ≠ sizeof_HANDLE is_x64) :
    Check_NtQuery_OverlappingReturnLength is_x64 os k =
      (ScyllaTestDetected,
        ⟨k.handles, k.calls ++ [.NtQueryInformationProcess_ProcessDebugObjectHandle]⟩) := by
  have hg : (!NT_SUCCESS os.NtQueryInformationProcess.1 &&
      os.NtQueryInformationProcess.1 != STATUS_PORT_NOT_SET) = false := by
    rcases hstatus with h | h
    · simp [h]
    · simp [h]
  simp [Check_NtQuery_OverlappingReturnLength, hg, hlen, Kernel.call]

/-- Witness for C8: a first query that succeeds with the length 8 on the 32-bit
build. -/
theorem Check_NtQuery_OverlappingReturnLength_short_circuit_witness :
    Check_NtQuery_OverlappingReturnLength false answersFirstLengthWrong kernel0 =
      (ScyllaTestDetected,
        ⟨[4, 8], [] ++ [.NtQueryInformationProcess_ProcessDebugObjectHandle]⟩) :=
  Check_NtQuery_OverlappingReturnLength_short_circuit false answersFirstLengthWrong
    kernel0 (Or.inl (by decide)) (by decide)

/-! ## The test loop -/

theorem runTests_cons {σ : Type} (check : Probe → σ → ScyllaTestResult × σ)
    (condition : Bool) (x : Probe) (rest : List (Bool × Probe)) (s : σ) :
    runTests check ((condition, x) :: rest) s =
      ((SCYLLA_TEST_IF check condition x s).1 ++
          (runTests check rest (SCYLLA_TEST_IF check condition x s).2).1,
        (runTests check rest (SCYLLA_TEST_IF check condition x s).2).2) := rfl

theorem testLoop_timeout_cons {σ : Type} (check : Probe → σ → ScyllaTestResult × σ)
    (body : List (Bool × Probe)) (g_stopEvent : Nat) (waits : List Nat) (s : σ) :
    testLoop check body g_stopEvent (STATUS_TIMEOUT :: waits) s =
      match testLoop check body g_stopEvent waits (runTests check body s).2 with
      | none => none
      | some r =>
        some (.NtWaitForSingleObject g_stopEvent STATUS_TIMEOUT ::
          .cycle (runTests check body s).1 :: r.1, r.2) := by
  simp [testLoop]

theorem runTests_append {σ : Type} (check : Probe → σ → ScyllaTestResult × σ)
    (l1 l2 : List (Bool × Probe)) :
    ∀ s, runTests check (l1 ++ l2) s =
      ((runTests check l1 s).1 ++ (runTests check l2 (runTests check l1 s).2).1,
        (runTests check l2 (runTests check l1 s).2).2) := by
  induction l1 with
  | nil => intro s; simp [runTests]
  | cons a rest ih =>
    intro s
    obtain ⟨c, x⟩ := a
    rw [List.cons_append, runTests_cons, runTests_cons, ih, List.append_assoc]

theorem Check_mem_runTests {σ : Type} (check : Probe → σ → ScyllaTestResult × σ)
    (x : Probe) (l : List (Bool × Probe)) :
    ∀ s, ProbeEvent.Check x ∈ (runTests check l s).1 → (true, x) ∈ l := by
  induction l with
  | nil => intro s h; simp [runTests] at h
  | cons a rest ih =>
    intro s h
    obtain ⟨c, y⟩ := a
    simp only [runTests, List.mem_append] at h
    rcases h with h | h
    · cases c with
      | false => simp [SCYLLA_TEST_IF] at h
      | true =>
        simp [SCYLLA_TEST_IF] at h
        subst h
        exact List.mem_cons_self _ _
    · exact List.mem_cons_of_mem _ (ih _ h)

theorem testLoop_cycles {σ : Type} (check : Probe → σ → ScyllaTestResult × σ)
    (body : List (Bool × Probe)) (g_stopEvent : Nat) :
    ∀ waits s ev s', testLoop check body g_stopEvent waits s = some (ev, s') →
      ∀ lines, Event.cycle lines ∈ ev → ∃ s0, lines = (runTests check body s0).1 := by
  intro waits
  induction waits with
  | nil => intro s ev s' h; simp [testLoop] at h
  | cons st waits ih =>
    intro s ev s' h lines hl
    by_cases hst : st = STATUS_TIMEOUT
    · simp only [testLoop, hst, ne_eq, not_true_eq_false, if_false] at h
      cases hr : testLoop check body g_stopEvent waits (runTests check body s).2 with
      | none => simp [hr] at h
      | some r =>
        simp only [hr, Option.some.injEq, Prod.mk.injEq] at h
        obtain ⟨h1, _⟩ := h
        subst h1
        simp only [List.mem_cons, Event.cycle.injEq] at hl
        rcases hl with hl | hl | hl
        · cases hl
        · exact ⟨s, hl⟩
        · exact ih _ r.1 r.2 hr lines hl
    · simp only [testLoop, ne_eq, hst, not_false_eq_true, if_true, Option.some.injEq,
        Prod.mk.injEq] at h
      obtain ⟨h1, _⟩ := h
      subst h1
      simp at hl

theorem testLoop_no_close {σ : Type} (check : Probe → σ → ScyllaTestResult × σ)
    (body : List (Bool × Probe)) (g_stopEvent : Nat) :
    ∀ waits s ev s', testLoop check body g_stopEvent waits s = some (ev, s') →
      ∀ h, Event.NtClose h ∉ ev := by
  intro waits
  induction waits with
  | nil => intro s ev s' h; simp [testLoop] at h
  | cons st waits ih =>
    intro s ev s' h hc hl
    by_cases hst : st = STATUS_TIMEOUT
    · simp only [testLoop, hst, ne_eq, not_true_eq_false, if_false] at h
      cases hr : testLoop check body g_stopEvent waits (runTests check body s).2 with
      | none => simp [hr] at h
      | some r =>
        simp only [hr, Option.some.injEq, Prod.mk.injEq] at h
        obtain ⟨h1, _⟩ := h
        subst h1
        simp only [List.mem_cons] at hl
        rcases hl with hl | hl | hl
        · cases hl
        · cases hl
        · exact ih _ r.1 r.2 hr hc hl
    · simp only [testLoop, ne_eq, hst, not_false_eq_true, if_true, Option.some.injEq,
        Prod.mk.injEq] at h
      obtain ⟨h1, _⟩ := h
      subst h1
      simp at hl

theorem testLoop_timeouts {σ : Type} (check : Probe → σ → ScyllaTestResult × σ)
    (body : List (Bool × Probe)) (g_stopEvent c : Nat) (hc : c ≠ STATUS_TIMEOUT) :
    ∀ k s, ∃ (ev : List Event) (s' : σ) (passes : List (List ProbeEvent)),
      testLoop check body g_stopEvent (List.replicate k STATUS_TIMEOUT ++ [c]) s =
        some (ev, s') ∧
      cyclesEmitted ev = k ∧
      ev.head? = some (.NtWaitForSingleObject g_stopEvent
        (if k = 0 then c else STATUS_TIMEOUT)) ∧
      passes.length = k ∧
      (∀ lines ∈ passes, ∃ s0, lines = (runTests check body s0).1) ∧
      ev = (passes.map (fun lines =>
          [Event.NtWaitForSingleObject g_stopEvent STATUS_TIMEOUT,
            Event.cycle lines])).flatten ++
        [.NtWaitForSingleObject g_stopEvent c] := by
  intro k
  induction k with
  | zero =>
    intro s
    exact ⟨[.NtWaitForSingleObject g_stopEvent c], s, [], by simp [testLoop, hc],
      by simp [cyclesEmitted], by simp, rfl, by simp, by simp⟩
  | succ k ih =>
    intro s
    obtain ⟨ev, s', passes, h1, h2, _, h4, h5, h6⟩ := ih (runTests check body s).2
    refine ⟨.NtWaitForSingleObject g_stopEvent STATUS_TIMEOUT ::
      .cycle (runTests check body s).1 :: ev, s', (runTests check body s).1 :: passes,
      ?_, ?_, ?_, ?_, ?_, ?_⟩
    · rw [List.replicate_succ, List.cons_append, testLoop_timeout_cons, h1]
    · simp [cyclesEmitted, h2]
    · simp
    · simp [h4]
    · intro lines hl
      rcases List.mem_cons.mp hl with hl | hl
      · exact ⟨s, hl⟩
      · exact h5 lines hl
    · rw [h6]
      simp

theorem cycle_preceded_cons (w e : Event) (l : List Event)
    (he : ∀ lines, e ≠ .cycle lines)
    (hl : ∀ pre lines post, l = pre ++ .cycle lines :: post → ∃ pre', pre = pre' ++ [w]) :
    ∀ pre lines post, e :: l = pre ++ .cycle lines :: post →
      ∃ pre', pre = pre' ++ [w] := by
  intro pre lines post h
  cases pre with
  | nil =>
    simp only [List.nil_append, List.cons.injEq] at h
    exact absurd h.1 (he lines)
  | cons a pre2 =>
    simp only [List.cons_append, List.cons.injEq] at h
    obtain ⟨ha, hrest⟩ := h
    obtain ⟨pre', hp⟩ := hl pre2 lines post hrest
    exact ⟨a :: pre', by rw [hp, List.cons_append]⟩

theorem cycle_preceded_append (w : Event) (l y : List Event)
    (hy : ∀ lines, Event.cycle lines ∉ y)
    (hl : ∀ pre lines post, l = pre ++ .cycle lines :: post → ∃ pre', pre = pre' ++ [w]) :
    ∀ pre lines post, l ++ y = pre ++ .cycle lines :: post →
      ∃ pre', pre = pre' ++ [w] := by
  intro pre lines post h
  rcases List.append_eq_append_iff.mp h with ⟨a', h1, h2⟩ | ⟨c', h1, h2⟩
  · exact absurd (h2 ▸ List.mem_append_right a' (List.mem_cons_self _ _)) (hy lines)
  · cases c' with
    | nil =>
      simp only [List.nil_append] at h2
      exact absurd (h2 ▸ List.mem_cons_self _ _) (hy lines)
    | cons d c'' =>
      simp only [List.cons_append, List.cons.injEq] at h2
      obtain ⟨hd, _⟩ := h2
      rw [← hd] at h1
      exact hl pre lines c'' h1

theorem testLoop_cycle_preceded {σ : Type} (check : Probe → σ → ScyllaTestResult × σ)
    (body : List (Bool × Probe)) (g_stopEvent : Nat) :
    ∀ waits s ev s', testLoop check body g_stopEvent waits s = some (ev, s') →
      ∀ pre lines post, ev = pre ++ .cycle lines :: post →
        ∃ pre', pre = pre' ++ [.NtWaitForSingleObject g_stopEvent STATUS_TIMEOUT] := by
  intro waits
  induction waits with
  | nil => intro s ev s' h; simp [testLoop] at h
  | cons st waits ih =>
    intro s ev s' h pre lines post hdec
    by_cases hst : st = STATUS_TIMEOUT
    · subst hst
      rw [testLoop_timeout_cons] at h
      cases hr : testLoop check body g_stopEvent waits (runTests check body s).2 with
      | none => simp [hr] at h
      | some r =>
        simp only [hr, Option.some.injEq, Prod.mk.injEq] at h
        obtain ⟨h1, _⟩ := h
        subst h1
        cases pre with
        | nil => simp at hdec
        | cons a pre2 =>
          simp only [List.cons_append, List.cons.injEq] at hdec
          obtain ⟨ha, hdec⟩ := hdec
          cases pre2 with
          | nil => exact ⟨[], by simp [ha]⟩
          | cons b pre3 =>
            simp only [List.cons_append, List.cons.injEq] at hdec
            obtain ⟨hb, hdec⟩ := hdec
            obtain ⟨pre', hp⟩ := ih _ r.1 r.2 hr pre3 lines post hdec
            exact ⟨a :: b :: pre', by rw [hp]; simp⟩
    · simp only [testLoop, ne_eq, hst, not_false_eq_true, if_true, Option.some.injEq,
        Prod.mk.injEq] at h
      obtain ⟨h1, _⟩ := h
      subst h1
      cases pre with
      | nil => simp at hdec
      | cons a pre2 =>
        simp only [List.cons_append, List.cons.injEq] at hdec
        obtain ⟨_, hdec⟩ := hdec
        cases pre2 <;> simp at hdec

theorem cyclesEmitted_append (l1 l2 : List Event) :
    cyclesEmitted (l1 ++ l2) = cyclesEmitted l1 + cyclesEmitted l2 := by
  induction l1 with
  | nil => simp [cyclesEmitted]
  | cons e rest ih =>
    cases e <;> simp [cyclesEmitted, ih]
    omega

theorem wWinMain_inv {σ : Type} (is_x64 : Bool) (v : OsVersions) (host : Host)
    (check : Probe → σ → ScyllaTestResult × σ) (waits : List Nat) (s : σ)
    (code : Int) (ev : List Event) (s' : σ)
    (hrun : wWinMain is_x64 v host check waits s = some (code, ev, s')) :
    (code = -1 ∧ ∀ e ∈ ev, (∃ h, e = .GetRealCurrentProcess h) ∨
      (∃ st h, e = .NtCreateEvent st h)) ∨
    (code = 0 ∧ ∃ lev,
      testLoop check (tests v host.IsWow64Process host.GetWindowsVersion)
        host.NtCreateEvent.2 waits s = some (lev, s') ∧
      ev = [.GetRealCurrentProcess host.GetRealCurrentProcess,
          .NtCreateEvent host.NtCreateEvent.1 host.NtCreateEvent.2] ++ lev ++
        [.NtClose host.NtCreateEvent.2, .NtClose host.GetRealCurrentProcess]) := by
  by_cases h1 : host.OpenConsole = true
  swap
  · simp only [wWinMain, h1, Bool.not_eq_true, Bool.not_false, if_true,
      Option.some.injEq, Prod.mk.injEq] at hrun
    obtain ⟨hc, he, _⟩ := hrun
    subst hc he
    exact Or.inl ⟨rfl, by simp⟩
  by_cases h2 : host.GetRealCurrentProcess = INVALID_HANDLE_VALUE is_x64
  · simp only [wWinMain, h1, h2, Bool.not_true, Bool.false_eq_true, if_false, if_true,
      Option.some.injEq, Prod.mk.injEq] at hrun
    obtain ⟨hc, he, _⟩ := hrun
    subst hc he
    exact Or.inl ⟨rfl, by simp⟩
  by_cases h3 : host.GetWindowsVersion < v.OS_WIN_XP
  · simp only [wWinMain, h1, h2, h3, Bool.not_true, Bool.false_eq_true, if_false,
      if_true, Option.some.injEq, Prod.mk.injEq] at hrun
    obtain ⟨hc, he, _⟩ := hrun
    subst hc he
    exact Or.inl ⟨rfl, by simp⟩
  by_cases h4 : NT_SUCCESS host.NtCreateEvent.1 = true
  swap
  · simp only [wWinMain, h1, h2, h3, h4, Bool.not_true, Bool.false_eq_true, if_false,
      Bool.not_eq_true, Bool.not_false, if_true, Option.some.injEq,
      Prod.mk.injEq] at hrun
    obtain ⟨hc, he, _⟩ := hrun
    subst hc he
    exact Or.inl ⟨rfl, by simp⟩
  simp only [wWinMain, h1, h2, h3, h4, Bool.not_true, Bool.false_eq_true,
    if_false] at hrun
  cases hr : testLoop check (tests v host.IsWow64Process host.GetWindowsVersion)
      host.NtCreateEvent.2 waits s with
  | none => simp [hr] at hrun
  | some r =>
    simp only [hr, Option.some.injEq, Prod.mk.injEq] at hrun
    obtain ⟨hc, he, hs⟩ := hrun
    subst hc he hs
    exact Or.inr ⟨rfl, r.1, rfl, rfl⟩

theorem wow64Probes_position (v : OsVersions) (w : Bool) (ver : Nat) (x : Probe)
    (hx : x ∈ wow64Probes) :
    ∃ pre post, tests v w ver = pre ++ (w, x) :: post ∧
      (true, x) ∉ pre ∧ (true, x) ∉ post := by
  simp only [wow64Probes, List.mem_cons, List.mem_singleton, List.not_mem_nil,
    or_false] at hx
  rcases hx with rfl | rfl | rfl | rfl
  · exact ⟨(tests v w ver).take 1, (tests v w ver).drop 2, rfl,
      by simp [tests], by simp [tests]⟩
  · exact ⟨(tests v w ver).take 3, (tests v w ver).drop 4, rfl,
      by simp [tests], by simp [tests]⟩
  · exact ⟨(tests v w ver).take 5, (tests v w ver).drop 6, rfl,
      by simp [tests], by simp [tests]⟩
  · exact ⟨(tests v w ver).take 7, (tests v w ver).drop 8, rfl,
      by simp [tests], by simp [tests]⟩

/-- Claim C7: in every pass of the loop body of a run of `wWinMain`, for each of
the four alternate-view probes: when `IsWow64Process` answered false, the probe
function is not called and the name of the probe is followed directly by the
result `ScyllaTestSkip`; when it answered true, the name is followed by the call
of the probe function and by the result that this call returned, and the probe
function is called that one time in the pass. -/
theorem alternate_view_probes_skipped_or_run {σ : Type} (is_x64 : Bool)
    (v : OsVersions) (host : Host) (check : Probe → σ → ScyllaTestResult × σ)
    (waits : List Nat) (s : σ) (code : Int) (ev : List Event) (s' : σ)
    (hrun : wWinMain is_x64 v host check waits s = some (code, ev, s')) :
    ∀ lines, Event.cycle lines ∈ ev → ∀ x, x ∈ wow64Probes →
      (host.IsWow64Process = false →
        ProbeEvent.Check x ∉ lines ∧
        [.printf_name x, .PrintScyllaTestResult ScyllaTestSkip] <:+: lines) ∧
      (host.IsWow64Process = true →
        ∃ before after s1,
          lines = before ++
            [.printf_name x, .Check x, .PrintScyllaTestResult (check x s1).1] ++ after ∧
          ProbeEvent.Check x ∉ before ∧ ProbeEvent.Check x ∉ after) := by
  intro lines hl x hx
  have hcyc : ∃ s0, lines =
      (runTests check (tests v host.IsWow64Process host.GetWindowsVersion) s0).1 := by
    rcases wWinMain_inv is_x64 v host check waits s code ev s' hrun with
      ⟨_, hfatal⟩ | ⟨_, lev, hloop, hev⟩
    · rcases hfatal _ hl with ⟨h, he⟩ | ⟨st, h, he⟩
      · cases he
      · cases he
    · subst hev
      simp only [List.mem_append, List.mem_cons, List.mem_singleton, List.not_mem_nil,
        or_false, false_or] at hl
      rcases hl with (hl | hl) | hl | hl
      · rcases hl with hl | hl
        · cases hl
        · cases hl
      · exact testLoop_cycles check _ _ waits s lev s' hloop lines hl
      · cases hl
      · cases hl
  obtain ⟨s0, hlines⟩ := hcyc
  obtain ⟨pre, post, hpos, hpre, hpost⟩ :=
    wow64Probes_position v host.IsWow64Process host.GetWindowsVersion x hx
  rw [hpos, runTests_append, runTests_cons] at hlines
  simp only at hlines
  have npre : ProbeEvent.Check x ∉ (runTests check pre s0).1 :=
    fun h => hpre (Check_mem_runTests check x pre s0 h)
  constructor
  · intro hw
    rw [hw] at hlines
    have hskip : SCYLLA_TEST_IF check false x (runTests check pre s0).2 =
        ([.printf_name x, .PrintScyllaTestResult ScyllaTestSkip],
          (runTests check pre s0).2) := rfl
    rw [hskip] at hlines
    simp only at hlines
    have npost : ProbeEvent.Check x ∉
        (runTests check post (runTests check pre s0).2).1 :=
      fun h => hpost (Check_mem_runTests check x post _ h)
    subst hlines
    refine ⟨?_, ⟨(runTests check pre s0).1,
      (runTests check post (runTests check pre s0).2).1, by simp⟩⟩
    simp only [List.mem_append, List.mem_cons, List.mem_singleton, List.not_mem_nil,
      or_false, not_or]
    exact ⟨npre, ⟨by simp, by simp⟩, npost⟩
  · intro hw
    rw [hw] at hlines
    have hcall : SCYLLA_TEST_IF check true x (runTests check pre s0).2 =
        ([.printf_name x, .Check x,
            .PrintScyllaTestResult (check x (runTests check pre s0).2).1],
          (check x (runTests check pre s0).2).2) := rfl
    rw [hcall] at hlines
    simp only at hlines
    have npost : ProbeEvent.Check x ∉
        (runTests check post (check x (runTests check pre s0).2).2).1 :=
      fun h => hpost (Check_mem_runTests check x post _ h)
    exact ⟨(runTests check pre s0).1,
      (runTests check post (check x (runTests check pre s0).2).2).1,
      (runTests check pre s0).2, by rw [hlines]; simp, npre, npost⟩

/-- Witness for C7: the sample run without WOW64 is a run of `wWinMain` with one
pass, and the theorem applies to it; it calls 14 probe functions, where the
sample run with WOW64 calls 18. -/
theorem alternate_view_probes_skipped_or_run_witness :
    wWinMain false sampleVersions sampleHost sampleCheck
        [STATUS_TIMEOUT, STATUS_SUCCESS] 0 = some sampleRun ∧
    cyclesEmitted sampleRun.2.1 = 1 ∧
    (∀ lines, Event.cycle lines ∈ sampleRun.2.1 → ∀ x, x ∈ wow64Probes →
      (sampleHost.IsWow64Process = false →
        ProbeEvent.Check x ∉ lines ∧
        [.printf_name x, .PrintScyllaTestResult ScyllaTestSkip] <:+: lines) ∧
      (sampleHost.IsWow64Process = true →
        ∃ before after s1,
          lines = before ++
            [.printf_name x, .Check x,
              .PrintScyllaTestResult (sampleCheck x s1).1] ++ after ∧
          ProbeEvent.Check x ∉ before ∧ ProbeEvent.Check x ∉ after)) ∧
    wWinMain false sampleVersions sampleHostWow64 sampleCheck
        [STATUS_TIMEOUT, STATUS_SUCCESS] 0 = some sampleRunWow64 ∧
    sampleRun.2.2 = 14 ∧ sampleRunWow64.2.2 = 18 :=
  ⟨by decide, by decide,
    alternate_view_probes_skipped_or_run false sampleVersions sampleHost sampleCheck
      [STATUS_TIMEOUT, STATUS_SUCCESS] 0 sampleRun.1 sampleRun.2.1 sampleRun.2.2
      (by decide),
    by decide, by decide, by decide⟩

/-- Claim C5 as the specification states it fails: when the stop event is
signalled during the first wait (no timeout expiry, `k = 0`), the run of
`wWinMain` contains no pass of the loop body, not `k + 1 = 1`; the first wait
precedes everything else the loop does. -/
theorem wWinMain_cancel_in_first_wait_no_cycle :
    wWinMain false sampleVersions sampleHost sampleCheck [STATUS_SUCCESS] 0 =
      some (0,
        [.GetRealCurrentProcess 0x1F0, .NtCreateEvent STATUS_SUCCESS 0x1F4,
          .NtWaitForSingleObject 0x1F4 STATUS_SUCCESS,
          .NtClose 0x1F4, .NtClose 0x1F0], 0) ∧
    cyclesEmitted
      [.GetRealCurrentProcess 0x1F0, .NtCreateEvent STATUS_SUCCESS 0x1F4,
        .NtWaitForSingleObject 0x1F4 STATUS_SUCCESS,
        .NtClose 0x1F4, .NtClose 0x1F0] ≠ 0 + 1 := by
  decide

/-- Claim C5, amended: after a successful start, the loop of `wWinMain` waits on
the stop event before every pass, the first one included: a run of `k` timeout
expiries followed by a wait that returns anything else ends with the exit code 0
and contains exactly `k` passes of the loop body (none when the stop event is
signalled during the first wait); the first thing the loop does is a wait on the
stop event; every pass in the run comes directly after a wait on the stop event
that returned `STATUS_TIMEOUT`; and between the start and the two closing calls
the run is exactly `k` times a timed-out wait followed by a pass of the nineteen
tests, then the wait that returned the other status. -/
theorem wWinMain_cycles_eq_timeouts {σ : Type} (is_x64 : Bool) (v : OsVersions)
    (host : Host) (check : Probe → σ → ScyllaTestResult × σ) (k c : Nat) (s : σ)
    (hconsole : host.OpenConsole = true)
    (hproc : host.GetRealCurrentProcess ≠ INVALID_HANDLE_VALUE is_x64)
    (hver : ¬ host.GetWindowsVersion < v.OS_WIN_XP)
    (hevent : NT_SUCCESS host.NtCreateEvent.1 = true)
    (hc : c ≠ STATUS_TIMEOUT) :
    ∃ ev s',
      wWinMain is_x64 v host check (List.replicate k STATUS_TIMEOUT ++ [c]) s =
        some (0, ev, s') ∧
      cyclesEmitted ev = k ∧
      ev.take 3 =
        [.GetRealCurrentProcess host.GetRealCurrentProcess,
          .NtCreateEvent host.NtCreateEvent.1 host.NtCreateEvent.2,
          .NtWaitForSingleObject host.NtCreateEvent.2
            (if k = 0 then c else STATUS_TIMEOUT)] ∧
      (∀ pre lines post, ev = pre ++ .cycle lines :: post →
        ∃ pre', pre = pre' ++
          [.NtWaitForSingleObject host.NtCreateEvent.2 STATUS_TIMEOUT]) ∧
      (∃ passes : List (List ProbeEvent),
        passes.length = k ∧
        (∀ lines ∈ passes, ∃ s0, lines =
          (runTests check (tests v host.IsWow64Process host.GetWindowsVersion) s0).1) ∧
        ev =
          [.GetRealCurrentProcess host.GetRealCurrentProcess,
            .NtCreateEvent host.NtCreateEvent.1 host.NtCreateEvent.2] ++
          ((passes.map (fun lines =>
              [Event.NtWaitForSingleObject host.NtCreateEvent.2 STATUS_TIMEOUT,
                Event.cycle lines])).flatten ++
            [.NtWaitForSingleObject host.NtCreateEvent.2 c]) ++
          [.NtClose host.NtCreateEvent.2, .NtClose host.GetRealCurrentProcess]) := by
  obtain ⟨lev, s', passes, h1, h2, h3, h4, h5, h6⟩ :=
    testLoop_timeouts check (tests v host.IsWow64Process host.GetWindowsVersion)
      host.NtCreateEvent.2 c hc k s
  have hpre := testLoop_cycle_preceded check _ _ _ s lev s' h1
  refine ⟨[.GetRealCurrentProcess host.GetRealCurrentProcess,
      .NtCreateEvent host.NtCreateEvent.1 host.NtCreateEvent.2] ++ lev ++
    [.NtClose host.NtCreateEvent.2, .NtClose host.GetRealCurrentProcess], s',
    ?_, ?_, ?_, ?_, ?_⟩
  · simp only [wWinMain, hconsole, hproc, hver, hevent, Bool.not_true,
      Bool.false_eq_true, if_false, h1]
  · rw [cyclesEmitted_append, cyclesEmitted_append, h2]
    simp [cyclesEmitted]
  · cases lev with
    | nil => simp at h3
    | cons e rest =>
      simp only [List.head?_cons, Option.some.injEq] at h3
      subst h3
      simp
  · have happ := cycle_preceded_append
      (.NtWaitForSingleObject host.NtCreateEvent.2 STATUS_TIMEOUT) lev
      [.NtClose host.NtCreateEvent.2, .NtClose host.GetRealCurrentProcess]
      (by intro lines; simp) hpre
    have hc2 := cycle_preceded_cons
      (.NtWaitForSingleObject host.NtCreateEvent.2 STATUS_TIMEOUT)
      (.NtCreateEvent host.NtCreateEvent.1 host.NtCreateEvent.2) _
      (by intro lines; simp) happ
    have hc1 := cycle_preceded_cons
      (.NtWaitForSingleObject host.NtCreateEvent.2 STATUS_TIMEOUT)
      (.GetRealCurrentProcess host.GetRealCurrentProcess) _
      (by intro lines; simp) hc2
    intro pre lines post hdec
    exact hc1 pre lines post (by rw [← hdec]; simp)
  · exact ⟨passes, h4, h5, by rw [h6]⟩

/-- Witness for C5: on `sampleHost`, two timeout expiries followed by the
signalled stop event. -/
theorem wWinMain_cycles_eq_timeouts_witness :
    ∃ ev s',
      wWinMain false sampleVersions sampleHost sampleCheck
        (List.replicate 2 STATUS_TIMEOUT ++ [STATUS_SUCCESS]) 0 = some (0, ev, s') ∧
      cyclesEmitted ev = 2 ∧
      ev.take 3 =
        [.GetRealCurrentProcess sampleHost.GetRealCurrentProcess,
          .NtCreateEvent sampleHost.NtCreateEvent.1 sampleHost.NtCreateEvent.2,
          .NtWaitForSingleObject sampleHost.NtCreateEvent.2
            (if 2 = 0 then STATUS_SUCCESS else STATUS_TIMEOUT)] ∧
      (∀ pre lines post, ev = pre ++ .cycle lines :: post →
        ∃ pre', pre = pre' ++
          [.NtWaitForSingleObject sampleHost.NtCreateEvent.2 STATUS_TIMEOUT]) ∧
      (∃ passes : List (List ProbeEvent),
        passes.length = 2 ∧
        (∀ lines ∈ passes, ∃ s0, lines =
          (runTests sampleCheck
            (tests sampleVersions sampleHost.IsWow64Process
              sampleHost.GetWindowsVersion) s0).1) ∧
        ev =
          [.GetRealCurrentProcess sampleHost.GetRealCurrentProcess,
            .NtCreateEvent sampleHost.NtCreateEvent.1 sampleHost.NtCreateEvent.2] ++
          ((passes.map (fun lines =>
              [Event.NtWaitForSingleObject sampleHost.NtCreateEvent.2 STATUS_TIMEOUT,
                Event.cycle lines])).flatten ++
            [.NtWaitForSingleObject sampleHost.NtCreateEvent.2 STATUS_SUCCESS]) ++
          [.NtClose sampleHost.NtCreateEvent.2,
            .NtClose sampleHost.GetRealCurrentProcess]) :=
  wWinMain_cycles_eq_timeouts false sampleVersions sampleHost sampleCheck 2
    STATUS_SUCCESS 0 (by decide) (by decide) (by decide) (by decide) (by decide)

/-- Claim C9 fails on the code: on the two fatal paths that follow the
acquisition of the process handle (version below `OS_WIN_XP`, failure of
`NtCreateEvent`), `wWinMain` returns -1 without a call of `NtClose` on the process
handle 0x1F0; in general a run that ends with a non-zero exit code contains no
call of `NtClose` at all. The path of the graceful stop closes the stop event and
the process handle once each. -/
theorem wWinMain_fatal_paths_keep_process_handle :
    wWinMain false sampleVersions sampleHostOldVersion sampleCheck [STATUS_SUCCESS] 0 =
      some (-1, [.GetRealCurrentProcess 0x1F0], 0) ∧
    timesClosed 0x1F0 [.GetRealCurrentProcess 0x1F0] = 0 ∧
    wWinMain false sampleVersions sampleHostNoEvent sampleCheck [STATUS_SUCCESS] 0 =
      some (-1, [.GetRealCurrentProcess 0x1F0,
        .NtCreateEvent STATUS_INSUFFICIENT_RESOURCES 0], 0) ∧
    timesClosed 0x1F0 [.GetRealCurrentProcess 0x1F0,
      .NtCreateEvent STATUS_INSUFFICIENT_RESOURCES 0] = 0 ∧
    (∀ (σ : Type) (is_x64 : Bool) (v : OsVersions) (host : Host)
        (check : Probe → σ → ScyllaTestResult × σ) (waits : List Nat) (s : σ)
        (code : Int) (ev : List Event) (s' : σ),
      wWinMain is_x64 v host check waits s = some (code, ev, s') → code ≠ 0 →
        ∀ h, timesClosed h ev = 0) ∧
    (∀ (σ : Type) (is_x64 : Bool) (v : OsVersions) (host : Host)
        (check : Probe → σ → ScyllaTestResult × σ) (waits : List Nat) (s : σ)
        (ev : List Event) (s' : σ),
      wWinMain is_x64 v host check waits s = some (0, ev, s') →
        host.NtCreateEvent.2 ≠ host.GetRealCurrentProcess →
        timesClosed host.GetRealCurrentProcess ev = 1 ∧
          timesClosed host.NtCreateEvent.2 ev = 1) := by
  refine ⟨by decide, by decide, by decide, by decide, ?_, ?_⟩
  · intro σ is_x64 v host check waits s code ev s' hrun hcode h
    rcases wWinMain_inv is_x64 v host check waits s code ev s' hrun with
      ⟨_, hfatal⟩ | ⟨h0, _⟩
    · refine List.count_eq_zero.mpr (fun hmem => ?_)
      rcases hfatal _ hmem with ⟨h, he⟩ | ⟨st, h, he⟩
      · cases he
      · cases he
    · exact absurd h0 hcode
  · intro σ is_x64 v host check waits s ev s' hrun hne
    rcases wWinMain_inv is_x64 v host check waits s 0 ev s' hrun with
      ⟨h0, _⟩ | ⟨_, lev, hloop, hev⟩
    · exact absurd h0 (by decide)
    · have hno := testLoop_no_close check _ _ waits s lev s' hloop
      have c1 : lev.count (.NtClose host.GetRealCurrentProcess) = 0 :=
        List.count_eq_zero.mpr (hno _)
      have c2 : lev.count (.NtClose host.NtCreateEvent.2) = 0 :=
        List.count_eq_zero.mpr (hno _)
      subst hev
      have hne2 : host.GetRealCurrentProcess ≠ host.NtCreateEvent.2 :=
        fun e => hne e.symm
      constructor
      · simp [timesClosed, List.count_append, List.count_cons, c1, hne]
      · simp [timesClosed, List.count_append, List.count_cons, c2, hne2]

end ScyllaTest
